import Mathlib

/-! # Moneta: Subregion construction and command-line front end

A shallow embedding of `Source/Subregions.cpp` and of `wmain` in
`Source/Console.cpp`, followed by theorems about them.

Conventions of the embedding.

* Addresses (`void*`, `uint8_t*`) and `SIZE_T` values are natural numbers.  The
  pointer expression `static_cast<uint8_t*>(BaseAddress) + RegionSize` is
  address addition: C++ defines it only while the result stays inside the
  address space, where it is addition on `Nat`.
* `uint32_t` variables that are advanced in a loop (`dwPageOffset`,
  `dwPrivateSize`) are reduced modulo `2^32` after every update.
* Operating-system calls are parameters of the model (`WinEnv`, `ConsoleEnv`);
  a call that can fail returns an `Option`.
* Constants of the Windows SDK carry their `winnt.h` values.  Constants that the
  repository declares in headers outside `Source/Subregions.cpp` and
  `Source/Console.cpp` are fields of `SubregionFlagConsts` and `ConsoleConsts`.
-/

namespace Moneta

/-! ## Windows SDK constants (winnt.h) -/

def PAGE_NOACCESS : Nat := 0x01
def PAGE_READONLY : Nat := 0x02
def PAGE_READWRITE : Nat := 0x04
def PAGE_WRITECOPY : Nat := 0x08
def PAGE_EXECUTE : Nat := 0x10
def PAGE_EXECUTE_READ : Nat := 0x20
def PAGE_EXECUTE_READWRITE : Nat := 0x40
def PAGE_EXECUTE_WRITECOPY : Nat := 0x80
def PAGE_GUARD : Nat := 0x100
def PAGE_NOCACHE : Nat := 0x200
def PAGE_WRITECOMBINE : Nat := 0x400

def MEM_COMMIT : Nat := 0x1000
def MEM_RESERVE : Nat := 0x2000
def MEM_FREE : Nat := 0x10000
def MEM_PRIVATE : Nat := 0x20000
def MEM_MAPPED : Nat := 0x40000
def MEM_IMAGE : Nat := 0x1000000

/-! ## Data model -/

/-- The fields of `MEMORY_BASIC_INFORMATION` that `Subregion` reads.  The field
`MemType` is the SDK field `Type`. -/
structure MEMORY_BASIC_INFORMATION where
  BaseAddress : Nat
  RegionSize : Nat
  State : Nat
  Protect : Nat
  MemType : Nat
deriving DecidableEq, Repr

/-- What the constructor reads of a `Processes::Thread`: `GetTid`,
`GetEntryPoint`, `GetStackAddress`, `GetTebAddress`. -/
structure Thread where
  Tid : Nat
  EntryPoint : Nat
  StackAddress : Nat
  TebAddress : Nat
deriving DecidableEq, Repr

/-- What the constructor reads of a `Processes::Process`: `GetThreads`,
`GetHeaps`, `GetImageBase`. -/
structure Process where
  Threads : List Thread
  Heaps : List Nat
  ImageBase : Nat
deriving DecidableEq, Repr

/-- The `MEMORY_SUBREGION_FLAG_*` macros are declared in `Memory.hpp`; they are
taken as parameters: four single-bit masks `2 ^ bit` at pairwise distinct bit
positions. -/
structure SubregionFlagConsts where
  heapBit : Nat
  stackBit : Nat
  tebBit : Nat
  baseImageBit : Nat
  distinct : [heapBit, stackBit, tebBit, baseImageBit].Nodup

namespace SubregionFlagConsts

def MEMORY_SUBREGION_FLAG_HEAP (K : SubregionFlagConsts) : Nat := 2 ^ K.heapBit
def MEMORY_SUBREGION_FLAG_STACK (K : SubregionFlagConsts) : Nat := 2 ^ K.stackBit
def MEMORY_SUBREGION_FLAG_TEB (K : SubregionFlagConsts) : Nat := 2 ^ K.tebBit
def MEMORY_SUBREGION_FLAG_BASE_IMAGE (K : SubregionFlagConsts) : Nat := 2 ^ K.baseImageBit

end SubregionFlagConsts

/-- A sample assignment of the flag macros (bits 0, 1, 2 and 4), used to
evaluate the model on concrete inputs. -/
def sampleFlagConsts : SubregionFlagConsts :=
  ⟨0, 1, 2, 4, by decide⟩

/-- The `VirtualAttributes` bits of `MEMORY_WORKING_SET_EX_INFORMATION` that
`QueryPrivateSize` reads. -/
structure WorkingSetAttributes where
  Shared : Bool
  SharedOriginal : Bool
deriving DecidableEq, Repr

/-- The operating system as seen by `QueryPrivateSize`.
`RtlGetVersion` is `none` when `GetProcAddress` returned a null pointer and
otherwise the build number the call writes into `osvi`;
`K32QueryWorkingSetEx va` is `none` when the call returns `FALSE` for the page
at `va` and otherwise the attributes it fills in. -/
structure WinEnv where
  RtlGetVersion : Option Nat
  K32QueryWorkingSetEx : Nat → Option WorkingSetAttributes

/-- Result of `QueryPrivateSize`: the returned `dwPrivateSize`, the value of the
function-local static `osvi.dwBuildNumber` after the call, and the addresses
passed to `K32QueryWorkingSetEx`, in call order. -/
structure QueryResult where
  dwPrivateSize : Nat
  dwBuildNumber : Nat
  queried : List Nat
deriving DecidableEq, Repr

/-- The object built by the constructor: `Threads` holds the thread ids passed to
`new Processes::Thread(tid, OwnerProc)`, in `push_back` order; `queried` is the
trace of working-set queries issued during construction and `dwBuildNumber` the
static OS-version cache afterwards. -/
structure Subregion where
  Basic : MEMORY_BASIC_INFORMATION
  Threads : List Nat
  Flags : Nat
  PrivateSize : Nat
  dwBuildNumber : Nat
  queried : List Nat
deriving DecidableEq, Repr

/-! ## `Subregion::PageExecutable` -/

/-- Source: `Subregion::PageExecutable`, Subregions.cpp 164-166. -/
def PageExecutable (dwProtect : Nat) : Bool :=
  dwProtect == PAGE_EXECUTE || dwProtect == PAGE_EXECUTE_READ ||
    dwProtect == PAGE_EXECUTE_READWRITE

/-! ## `Subregion::QueryPrivateSize` -/

/-- The lazy initialisation of the static `osvi` (Subregions.cpp 132-135):
`RtlGetVersion` is called when the pointer is non-null and the cached build
number is still zero. -/
def refreshBuildNumber (E : WinEnv) (cached : Nat) : Nat :=
  match E.RtlGetVersion with
  | some b => if cached = 0 then b else cached
  | none => cached

/-- One iteration of the page loop body (Subregions.cpp 141-157): the new value
of `dwPrivateSize`. -/
def pageBody (E : WinEnv) (build : Nat) (va : Nat) (dwPrivateSize : Nat) : Nat :=
  match E.K32QueryWorkingSetEx va with
  | some attrs =>
    if build ≥ 16299 then
      if !attrs.SharedOriginal then (dwPrivateSize + 0x1000) % 2 ^ 32 else dwPrivateSize
    else
      if !attrs.Shared then (dwPrivateSize + 0x1000) % 2 ^ 32 else dwPrivateSize
  | none => dwPrivateSize

/-- The `for` loop of Subregions.cpp 140-158, with `fuel` bounding the number of
condition tests; `none` when the fuel runs out before the condition fails.
State: `dwPageOffset` (32-bit), `dwPrivateSize` (32-bit) and the query trace. -/
def pageLoop (E : WinEnv) (build : Nat) (Mbi : MEMORY_BASIC_INFORMATION) :
    Nat → Nat → Nat → List Nat → Option (Nat × List Nat)
  | 0, _, _, _ => none
  | fuel + 1, dwPageOffset, dwPrivateSize, queried =>
    if dwPageOffset < Mbi.RegionSize then
      let va := Mbi.BaseAddress + dwPageOffset
      pageLoop E build Mbi fuel ((dwPageOffset + 0x1000) % 2 ^ 32)
        (pageBody E build va dwPrivateSize) (queried ++ [va])
    else
      some (dwPrivateSize, queried)

/-- Source: `Subregion::QueryPrivateSize`, Subregions.cpp 127-162.  `cached` is
the static `osvi.dwBuildNumber` on entry. -/
def QueryPrivateSize (E : WinEnv) (fuel : Nat) (cached : Nat)
    (Mbi : MEMORY_BASIC_INFORMATION) : Option QueryResult :=
  let build := refreshBuildNumber E cached
  if Mbi.State = MEM_COMMIT ∧ Mbi.Protect ≠ PAGE_NOACCESS ∧ Mbi.MemType = MEM_IMAGE then
    match pageLoop E build Mbi fuel 0 0 [] with
    | some (size, queried) => some ⟨size, build, queried⟩
    | none => none
  else
    some ⟨0, build, []⟩

/-! ## `Subregion::Subregion` -/

/-- The containment test written four times in the constructor:
`p >= BaseAddress && p < BaseAddress + RegionSize`. -/
def inRegion (Mbi : MEMORY_BASIC_INFORMATION) (p : Nat) : Bool :=
  decide (p ≥ Mbi.BaseAddress) && decide (p < Mbi.BaseAddress + Mbi.RegionSize)

/-- Body of the loop over `OwnerProc.GetThreads()` (Subregions.cpp 44-56), acting
on the pair (`this->Threads`, `this->Flags`). -/
def threadStep (K : SubregionFlagConsts) (Mbi : MEMORY_BASIC_INFORMATION)
    (s : List Nat × Nat) (t : Thread) : List Nat × Nat :=
  let threads := if inRegion Mbi t.EntryPoint then s.1 ++ [t.Tid] else s.1
  let flags1 := if inRegion Mbi t.StackAddress then
      s.2 ||| K.MEMORY_SUBREGION_FLAG_STACK else s.2
  let flags2 := if inRegion Mbi t.TebAddress then
      flags1 ||| K.MEMORY_SUBREGION_FLAG_TEB else flags1
  (threads, flags2)

/-- Modelled from the spec: the default member initialisers of class `Subregion`
(`Threads`, `Flags`, `PrivateSize`) are declared in `Memory.hpp`, which is not
part of the sources at hand.  The spec's scenario of a region without any
thread or heap overlap yields "zero provenance flags", the thread subset starts
empty, and the private size is "computed only for committed, accessible
regions", so the three members start as the empty list, 0 and 0. -/
def initialMembers : List Nat × Nat × Nat := ([], 0, 0)

/-- The first part of `Subregion::Subregion` (Subregions.cpp 41-64): the members
`Threads` and `Flags` once the thread loop, the image-base test and the heap
lookup `find(Heaps.begin(), Heaps.end(), Mbi->BaseAddress)` have run. -/
def Subregion.provenance (K : SubregionFlagConsts) (OwnerProc : Process)
    (Mbi : MEMORY_BASIC_INFORMATION) : List Nat × Nat :=
  let afterLoop := OwnerProc.Threads.foldl (threadStep K Mbi)
    (initialMembers.1, initialMembers.2.1)
  let flags3 := if inRegion Mbi OwnerProc.ImageBase then
      afterLoop.2 ||| K.MEMORY_SUBREGION_FLAG_BASE_IMAGE else afterLoop.2
  let flags4 := if Mbi.BaseAddress ∈ OwnerProc.Heaps then
      flags3 ||| K.MEMORY_SUBREGION_FLAG_HEAP else flags3
  (afterLoop.1, flags4)

/-- Source: `Subregion::Subregion`, Subregions.cpp 40-69.  `cached` is the
static OS-version cache on entry, `fuel` bounds the page loop of
`QueryPrivateSize`; the result is `none` when that loop does not finish. -/
def Subregion.new (K : SubregionFlagConsts) (E : WinEnv) (fuel : Nat) (cached : Nat)
    (OwnerProc : Process) (Mbi : MEMORY_BASIC_INFORMATION) : Option Subregion :=
  let m := Subregion.provenance K OwnerProc Mbi
  if Mbi.State = MEM_COMMIT ∧ Mbi.MemType ≠ MEM_PRIVATE then
    match QueryPrivateSize E fuel cached Mbi with
    | some r => some ⟨Mbi, m.1, m.2, r.dwPrivateSize, r.dwBuildNumber, r.queried⟩
    | none => none
  else
    some ⟨Mbi, m.1, m.2, initialMembers.2.2, cached, []⟩

/-- A flag macro `2 ^ bit` is set in `Flags`. -/
def flagSet (Flags bit : Nat) : Bool := Flags.testBit bit

/-! ## `wmain` (Console.cpp) -/

/-- Source: `enum class SelectedProcess_t`, Console.cpp 48-53. -/
inductive SelectedProcess_t where
  | InvalidPid
  | SpecificPid
  | AllPids
  | SelfPid
deriving DecidableEq, Repr

/-- The members of `ScannerContext::MemorySelection_t` that `wmain` names (the
enum itself is declared in `Scanner.hpp`). -/
inductive MemorySelection_t where
  | Invalid
  | Block
  | All
  | Ioc
  | Referenced
deriving DecidableEq, Repr

/-- The `PROCESS_ENUM_FLAG_*` and `FILTER_FLAG_*` macros are declared in headers
outside `Console.cpp`; they are taken as parameters, each a value that fits the
`uint64_t` variables `qwOptFlags` and `qwFilterFlags`. -/
structure ConsoleConsts where
  PROCESS_ENUM_FLAG_MEMDUMP : Nat
  PROCESS_ENUM_FLAG_FROM_BASE : Nat
  PROCESS_ENUM_FLAG_STATISTICS : Nat
  FILTER_FLAG_UNSIGNED_MODULES : Nat
  FILTER_FLAG_METADATA_MODULES : Nat
  FILTER_FLAG_CLR_PRVX : Nat
  FILTER_FLAG_CLR_HEAP : Nat
  FILTER_FLAG_WOW64_INIT : Nat
  memdump_lt : PROCESS_ENUM_FLAG_MEMDUMP < 2 ^ 64
  from_base_lt : PROCESS_ENUM_FLAG_FROM_BASE < 2 ^ 64
  statistics_lt : PROCESS_ENUM_FLAG_STATISTICS < 2 ^ 64
  unsigned_modules_lt : FILTER_FLAG_UNSIGNED_MODULES < 2 ^ 64
  metadata_modules_lt : FILTER_FLAG_METADATA_MODULES < 2 ^ 64
  clr_prvx_lt : FILTER_FLAG_CLR_PRVX < 2 ^ 64
  clr_heap_lt : FILTER_FLAG_CLR_HEAP < 2 ^ 64
  wow64_init_lt : FILTER_FLAG_WOW64_INIT < 2 ^ 64

/-- A sample assignment of the option and filter macros (one bit each), used to
evaluate the model on concrete inputs. -/
def sampleConsoleConsts : ConsoleConsts :=
  ⟨0x1, 0x2, 0x4, 0x1, 0x2, 0x4, 0x8, 0x10,
    by decide, by decide, by decide, by decide, by decide, by decide, by decide, by decide⟩

/-- The operating system and C runtime as seen by `wmain`.
* `_wtoi s` is the `int` returned by the CRT for the string `s`;
* `wcstoull s` is the address obtained from
  `reinterpret_cast<uint8_t*>(wcstoull(s, NULL, 0))`;
* `IsWow64Process` is `none` when `GetProcAddress` gave a null pointer,
  `some none` when the call fails and `some (some b)` when it succeeds with
  `bSelfWow64 = b`;
* `nativeAMD64` tells whether `GetNativeSystemInfo` reports
  `PROCESSOR_ARCHITECTURE_AMD64`;
* `usageResource` tells whether `FindResourceA` and `LoadResource` both succeed;
* `ProcessCtor pid` is `some e` when `Process TargetProc(pid)` throws the
  `int32_t` value `e`, and `none` when construction succeeds;
* `snapshot` is `none` when `CreateToolhelp32Snapshot` yields a null handle and
  otherwise the process ids delivered by `Process32FirstW`/`Process32NextW`. -/
structure ConsoleEnv where
  _wtoi : String → Int
  wcstoull : String → Nat
  IsWow64Process : Option (Option Bool)
  nativeAMD64 : Bool
  GetCurrentProcessId : Nat
  usageResource : Bool
  GrantSelfSeDebug : Bool
  ProcessCtor : Nat → Option Int
  snapshot : Option (List Nat)

/-- The local variables of `wmain` that the argument loop assigns
(Console.cpp 58-63). -/
structure ParseState where
  ProcType : SelectedProcess_t
  Mst : MemorySelection_t
  dwSelectedPid : Nat
  dwRegionSize : Nat
  pAddress : Nat
  bSuppressBanner : Bool
  qwOptFlags : Nat
  qwFilterFlags : Nat
deriving DecidableEq, Repr

/-- Initial values of the locals, Console.cpp 58-63. -/
def ParseState.init : ParseState :=
  ⟨SelectedProcess_t.InvalidPid, MemorySelection_t.Invalid, 0, 0, 0, false, 0, 0⟩

/-- The function `::tolower` in the "C" locale: the letters `A`-`Z` map to
`a`-`z`, every other character is unchanged (also the wide characters beyond
the range of `unsigned char`, for which the C library fixes no result). -/
def tolower (c : Char) : Char :=
  if 65 ≤ c.toNat ∧ c.toNat ≤ 90 then Char.ofNat (c.toNat + 32) else c

/-- The statement `transform(Arg.begin(), Arg.end(), Arg.begin(), ::tolower)`. -/
def lowered (Arg : String) : String := ⟨Arg.data.map tolower⟩

/-- Conversion of an `int` to `uint32_t`. -/
def toUInt32 (x : Int) : Nat := (x % 2 ^ 32).toNat

/-- The inner loop of the `--option` branch (Console.cpp 102-115), run over the
arguments from the iterator `i` to `Args.end()`, acting on
(`qwOptFlags`, `bSuppressBanner`). -/
def optionLoop (K : ConsoleConsts) : List String → Nat × Bool → Nat × Bool
  | [], s => s
  | a :: rest, s =>
    let OptArg := lowered a
    if OptArg = "from-base" then
      optionLoop K rest (s.1 ||| K.PROCESS_ENUM_FLAG_FROM_BASE, s.2)
    else if OptArg = "statistics" then
      optionLoop K rest (s.1 ||| K.PROCESS_ENUM_FLAG_STATISTICS, s.2)
    else if OptArg = "suppress-banner" then
      optionLoop K rest (s.1, true)
    else
      optionLoop K rest s

/-- The inner loop of the `--filter` branch (Console.cpp 118-141), run over the
arguments from the iterator `i` to `Args.end()`, acting on `qwFilterFlags`.
The assignment `qwFilterFlags = -1` stores `2 ^ 64 - 1` and leaves the loop. -/
def filterLoop (K : ConsoleConsts) : List String → Nat → Nat
  | [], f => f
  | a :: rest, f =>
    let FilterArg := lowered a
    if FilterArg = "*" then
      2 ^ 64 - 1
    else if FilterArg = "unsigned-modules" then
      filterLoop K rest (f ||| K.FILTER_FLAG_UNSIGNED_MODULES)
    else if FilterArg = "metadata-modules" then
      filterLoop K rest (f ||| K.FILTER_FLAG_METADATA_MODULES)
    else if FilterArg = "clr-prvx" then
      filterLoop K rest (f ||| K.FILTER_FLAG_CLR_PRVX)
    else if FilterArg = "clr-heap" then
      filterLoop K rest (f ||| K.FILTER_FLAG_CLR_HEAP)
    else if FilterArg = "wow64-init" then
      filterLoop K rest (f ||| K.FILTER_FLAG_WOW64_INIT)
    else
      filterLoop K rest f

/-- The expression `*(i + 1)`: the element after the current one.  `rest` holds
the elements from `i + 1` to `Args.end()`; when it is empty the iterator
`i + 1` equals `Args.end()` and the read is past the end of the vector, which
the model reports as `none`. -/
def derefNext (rest : List String) : Option String := rest.head?

/-- Body of the argument loop (Console.cpp 66-142) for the element `cur` at the
iterator `i`, with `rest` the elements after it.  `none` when the body reads
`*(i + 1)` past the end of `Args`. -/
def parseArg (E : ConsoleEnv) (K : ConsoleConsts) (cur : String) (rest : List String)
    (s : ParseState) : Option ParseState :=
  let Arg := lowered cur
  if Arg = "-p" then
    match derefNext rest with
    | none => none
    | some next =>
      if next = "*" then
        some { s with ProcType := SelectedProcess_t.AllPids }
      else
        some { s with ProcType := SelectedProcess_t.SpecificPid,
                      dwSelectedPid := toUInt32 (E._wtoi next) }
  else if Arg = "-m" then
    match derefNext rest with
    | none => none
    | some next =>
      if next = "region" then some { s with Mst := MemorySelection_t.Block }
      else if next = "*" then some { s with Mst := MemorySelection_t.All }
      else if next = "ioc" then some { s with Mst := MemorySelection_t.Ioc }
      else if next = "referenced" then some { s with Mst := MemorySelection_t.Referenced }
      else some s
  else if Arg = "--address" then
    match derefNext rest with
    | none => none
    | some next => some { s with pAddress := E.wcstoull next }
  else if Arg = "-d" then
    some { s with qwOptFlags := s.qwOptFlags ||| K.PROCESS_ENUM_FLAG_MEMDUMP }
  else if Arg = "--region-size" then
    match derefNext rest with
    | none => none
    | some next => some { s with dwRegionSize := toUInt32 (E._wtoi next) }
  else if Arg = "--option" then
    let r := optionLoop K (cur :: rest) (s.qwOptFlags, s.bSuppressBanner)
    some { s with qwOptFlags := r.1, bSuppressBanner := r.2 }
  else if Arg = "--filter" then
    some { s with qwFilterFlags := filterLoop K (cur :: rest) s.qwFilterFlags }
  else
    some s

/-- The argument loop (Console.cpp 65-143) over the elements from the iterator
`i` to `Args.end()`. -/
def parseLoop (E : ConsoleEnv) (K : ConsoleConsts) : List String → ParseState → Option ParseState
  | [], s => some s
  | cur :: rest, s =>
    match parseArg E K cur rest s with
    | none => none
    | some s1 => parseLoop E K rest s1

/-- The argument loop started at `Args.begin()` with the initial locals. -/
def parseArgs (E : ConsoleEnv) (K : ConsoleConsts) (Args : List String) : Option ParseState :=
  parseLoop E K Args ParseState.init

/-- Observable steps of `wmain`, in program order. -/
inductive Event where
  | Banner
  | Wow64Warning
  | Usage
  | RejectProcType
  | RejectSelfTarget
  | RejectMemorySelection
  | RejectMissingAddress
  | GrantSeDebug (ok : Bool)
  | MemDumpInitialize
  | NewScannerContext (qwOptFlags : Nat) (Mst : MemorySelection_t) (pAddress : Nat)
      (dwRegionSize : Nat) (qwFilterFlags : Nat)
  | ProcessConstruct (pid : Nat)
  | MapFailed (pid : Nat) (nError : Int)
  | Enumerate (pid : Nat)
  | CollectRecords (pid : Nat)
  | SnapshotFailed
  | ShowRecords
  | ScanCompleted
deriving DecidableEq, Repr

/-- The Wow64 check of Console.cpp 161-172: true when `wmain` logs the 32-bit
warning and returns 0. -/
def wow64Gate (E : ConsoleEnv) : Bool :=
  match E.IsWow64Process with
  | some (some bSelfWow64) => E.nativeAMD64 && bSelfWow64
  | _ => false

/-- The input validation of Console.cpp 194-212: the rejection logged, or `none`
when all four checks pass. -/
def validate (E : ConsoleEnv) (s : ParseState) : Option Event :=
  if s.ProcType = SelectedProcess_t.InvalidPid then some Event.RejectProcType
  else if s.dwSelectedPid = E.GetCurrentProcessId then some Event.RejectSelfTarget
  else if s.Mst = MemorySelection_t.Invalid then some Event.RejectMemorySelection
  else if (s.Mst = MemorySelection_t.Referenced ∨ s.Mst = MemorySelection_t.Block)
      ∧ s.pAddress = 0 then some Event.RejectMissingAddress
  else none

/-- The `try` block for one target process (Console.cpp 233-250 and 265-291):
construction, `Enumerate`, and the statistics step when the flag is set. -/
def scanOne (E : ConsoleEnv) (K : ConsoleConsts) (s : ParseState) (pid : Nat) : List Event :=
  match E.ProcessCtor pid with
  | some nError => [Event.ProcessConstruct pid, Event.MapFailed pid nError]
  | none =>
    [Event.ProcessConstruct pid, Event.Enumerate pid] ++
      (if s.qwOptFlags &&& K.PROCESS_ENUM_FLAG_STATISTICS ≠ 0 then
        [Event.CollectRecords pid] else [])

/-- The `do ... while` walk over the process snapshot (Console.cpp 262-294); the
scanner's own process id is skipped. -/
def scanAll (E : ConsoleEnv) (K : ConsoleConsts) (s : ParseState) : List Nat → List Event
  | [] => []
  | pid :: rest =>
    (if pid ≠ E.GetCurrentProcessId then scanOne E K s pid else []) ++ scanAll E K s rest

/-- The scanning part of `wmain` after validation (Console.cpp 216-316). -/
def runScan (E : ConsoleEnv) (K : ConsoleConsts) (s : ParseState) : List Event :=
  [Event.GrantSeDebug E.GrantSelfSeDebug] ++
  (if s.qwOptFlags &&& K.PROCESS_ENUM_FLAG_MEMDUMP ≠ 0 then [Event.MemDumpInitialize] else []) ++
  [Event.NewScannerContext s.qwOptFlags s.Mst s.pAddress s.dwRegionSize s.qwFilterFlags] ++
  (if s.ProcType = SelectedProcess_t.SelfPid ∨ s.ProcType = SelectedProcess_t.SpecificPid then
    let evs := scanOne E K s s.dwSelectedPid
    evs ++ (if Event.CollectRecords s.dwSelectedPid ∈ evs then [Event.ShowRecords] else [])
  else
    match E.snapshot with
    | some pids =>
      let evs := scanAll E K s pids
      evs ++ (if ∃ pid ∈ pids, Event.CollectRecords pid ∈ evs then [Event.ShowRecords] else [])
    | none => [Event.SnapshotFailed]) ++
  [Event.ScanCompleted]

/-- The banner of Console.cpp 145-156, logged unless `suppress-banner` was
given. -/
def bannerEvents (s : ParseState) : List Event :=
  if !s.bSuppressBanner then [Event.Banner] else []

/-- The usage text of Console.cpp 175-189, logged when the resource is found
and loaded. -/
def usageEvents (E : ConsoleEnv) : List Event :=
  if E.usageResource then [Event.Usage] else []

/-- Source: `wmain`, Console.cpp 55-318.  The result is the exit status with the
trace of observable steps, or `none` when the argument loop reads past the end
of `Args`.  `Interface::Initialize(Args)` (Interface.cpp) only configures the
logger and is left out.  `nArgc` is `Args.length`.  In the branch `nArgc < 5` control
reaches the end of `wmain` without a `return`; the compiler supplies the
return value 0 for `main` and `wmain`. -/
def wmain (E : ConsoleEnv) (K : ConsoleConsts) (Args : List String) :
    Option (Int × List Event) :=
  match parseArgs E K Args with
  | none => none
  | some s =>
    if wow64Gate E then
      some (0, bannerEvents s ++ [Event.Wow64Warning])
    else if Args.length < 5 then
      some (0, bannerEvents s ++ usageEvents E)
    else
      match validate E s with
      | some rejection => some (0, bannerEvents s ++ [rejection])
      | none => some (1, bannerEvents s ++ runScan E K s)

/-! ## Concrete inputs used by the witnesses and counterexamples -/

/-- A process with one thread (stack at 0x20000, TEB at 0x7000, entry point at
0x401000), one heap at 0x11000 and its image at 0x400000. -/
def demoProcess : Process :=
  ⟨[⟨7, 0x401000, 0x20000, 0x7000⟩], [0x11000], 0x400000⟩

/-- A committed private read-write region `[0x10000, 0x12000)`. -/
def demoPrivateMbi : MEMORY_BASIC_INFORMATION :=
  ⟨0x10000, 0x2000, MEM_COMMIT, PAGE_READWRITE, MEM_PRIVATE⟩

/-- A committed private read-write region `[0x20000, 0x21000)`. -/
def demoStackMbi : MEMORY_BASIC_INFORMATION :=
  ⟨0x20000, 0x1000, MEM_COMMIT, PAGE_READWRITE, MEM_PRIVATE⟩

/-- An operating system without `RtlGetVersion` where every working-set query
fails. -/
def demoWinEnv : WinEnv := ⟨none, fun _ => none⟩

/-- The half-open interval `[base, base+size)` of a region descriptor, as the
spec words it. -/
def halfOpen (Mbi : MEMORY_BASIC_INFORMATION) (a : Nat) : Prop :=
  Mbi.BaseAddress ≤ a ∧ a < Mbi.BaseAddress + Mbi.RegionSize

instance (Mbi : MEMORY_BASIC_INFORMATION) (a : Nat) : Decidable (halfOpen Mbi a) :=
  inferInstanceAs (Decidable (_ ∧ _))

/-- An image region `[0x400000, 0x402000)` and its two section-aligned slices. -/
def demoImageRegion : MEMORY_BASIC_INFORMATION :=
  ⟨0x400000, 0x2000, MEM_COMMIT, PAGE_EXECUTE_READ, MEM_IMAGE⟩

def demoSiblings : List MEMORY_BASIC_INFORMATION :=
  [⟨0x400000, 0x1000, MEM_COMMIT, PAGE_READONLY, MEM_IMAGE⟩,
   ⟨0x401000, 0x1000, MEM_COMMIT, PAGE_EXECUTE_READ, MEM_IMAGE⟩]

/-- A protection value grants execute permission, as the spec words it: one of
the four execute bits `PAGE_EXECUTE`, `PAGE_EXECUTE_READ`,
`PAGE_EXECUTE_READWRITE`, `PAGE_EXECUTE_WRITECOPY` is set in it. -/
def grantsExecute (dwProtect : Nat) : Bool :=
  dwProtect &&& (PAGE_EXECUTE ||| PAGE_EXECUTE_READ ||| PAGE_EXECUTE_READWRITE |||
    PAGE_EXECUTE_WRITECOPY) != 0

/-- The non-empty combinations of the modifier bits `PAGE_GUARD`, `PAGE_NOCACHE`
and `PAGE_WRITECOMBINE`. -/
def modifierCombinations : List Nat :=
  [PAGE_GUARD, PAGE_NOCACHE, PAGE_WRITECOMBINE, PAGE_GUARD ||| PAGE_NOCACHE,
   PAGE_GUARD ||| PAGE_WRITECOMBINE, PAGE_NOCACHE ||| PAGE_WRITECOMBINE,
   PAGE_GUARD ||| PAGE_NOCACHE ||| PAGE_WRITECOMBINE]

/-- A reserved region and a committed image region with `PAGE_NOACCESS`. -/
def demoReservedMbi : MEMORY_BASIC_INFORMATION :=
  ⟨0x30000, 0x3000, MEM_RESERVE, 0, MEM_MAPPED⟩

def demoNoAccessMbi : MEMORY_BASIC_INFORMATION :=
  ⟨0x400000, 0x2000, MEM_COMMIT, PAGE_NOACCESS, MEM_IMAGE⟩

/-- An operating system at build 19045 where every page is resident and
private. -/
def demoPrivateWinEnv : WinEnv := ⟨some 19045, fun _ => some ⟨false, false⟩⟩

/-- The number of page offsets `k * 0x1000` that lie below `RegionSize`:
`RegionSize` divided by the page size, rounded up. -/
def pageCount (RegionSize : Nat) : Nat := (RegionSize + 0xFFF) / 0x1000

/-- The page at offset `k * 0x1000` counts as private, as the spec words it: the
working-set query for it succeeds and its sharing bit is clear, the sharing bit
being `SharedOriginal` from build 16299 on and `Shared` before. -/
def pageCountsPrivate (E : WinEnv) (build : Nat) (Mbi : MEMORY_BASIC_INFORMATION)
    (k : Nat) : Bool :=
  match E.K32QueryWorkingSetEx (Mbi.BaseAddress + k * 0x1000) with
  | some attrs => if build ≥ 16299 then !attrs.SharedOriginal else !attrs.Shared
  | none => false

/-- The number of private pages among the page offsets below `RegionSize`. -/
def privatePageCount (E : WinEnv) (build : Nat) (Mbi : MEMORY_BASIC_INFORMATION) : Nat :=
  ((List.range (pageCount Mbi.RegionSize)).filter (pageCountsPrivate E build Mbi)).length

/-- An operating system at build 19045 where the page at 0x400000 is resident
and private, the page at 0x401000 is shared, and every other query fails. -/
def demoMixedWinEnv : WinEnv :=
  ⟨some 19045, fun va =>
    if va = 0x400000 then some ⟨false, false⟩
    else if va = 0x401000 then some ⟨true, true⟩
    else none⟩

/-- A committed image region of three pages, `[0x400000, 0x402800)`. -/
def demoImageMbi : MEMORY_BASIC_INFORMATION :=
  ⟨0x400000, 0x2800, MEM_COMMIT, PAGE_EXECUTE_READ, MEM_IMAGE⟩

/-- The switches whose branch reads `*(i + 1)`: `-p`, `-m`, `--address` and
`--region-size` (compared after lowering, as in the loop). -/
def takesValue (a : String) : Bool :=
  lowered a = "-p" || lowered a = "-m" || lowered a = "--address" ||
    lowered a = "--region-size"

/-- The last element of the argument vector is a switch that reads `*(i + 1)`. -/
def lastTakesValue (Args : List String) : Bool :=
  match Args.getLast? with
  | some a => takesValue a
  | none => false

/-- An environment for concrete runs of `wmain`: process id 4242, a 64-bit
build (no Wow64), every process can be opened, the snapshot lists the pids
4, 4242 and 1000. -/
def demoConsoleEnv : ConsoleEnv :=
  ⟨fun _ => 1000, fun _ => 0, some (some false), true, 4242, true, true,
    fun _ => none, some [4, 4242, 1000]⟩

/-- The same environment for a 32-bit build running on a 64-bit system. -/
def demoWow64Env : ConsoleEnv :=
  ⟨fun _ => 1000, fun _ => 0, some (some true), true, 4242, true, true,
    fun _ => none, some [4, 4242, 1000]⟩

/-- The steps the spec counts as scanning: the privilege grant, the construction
of a `Process`, and `Enumerate`. -/
def Event.isScanning : Event → Bool
  | Event.GrantSeDebug _ => true
  | Event.ProcessConstruct _ => true
  | Event.Enumerate _ => true
  | _ => false

/-- Events that only the scanning part of `wmain` emits (Console.cpp 216-316). -/
def Event.afterValidation : Event → Bool
  | Event.Banner => false
  | Event.Wow64Warning => false
  | Event.Usage => false
  | Event.RejectProcType => false
  | Event.RejectSelfTarget => false
  | Event.RejectMemorySelection => false
  | Event.RejectMissingAddress => false
  | _ => true

/-- A `-p` target was given: some argument, lowered, is `-p`. -/
def givesTarget (Args : List String) : Bool :=
  Args.any (fun a => lowered a = "-p")

/-- The values of `-m` that the loop accepts (compared without lowering). -/
def memorySelections : List String := ["region", "*", "ioc", "referenced"]

/-- A valid `-m` memory selection was given: some argument, lowered, is `-m` and
the argument after it is one of `region`, `*`, `ioc`, `referenced`. -/
def givesMemorySelection : List String → Bool
  | [] => false
  | cur :: rest =>
    (decide (lowered cur = "-m") &&
      (match rest.head? with
       | some next => decide (next ∈ memorySelections)
       | none => false)) || givesMemorySelection rest

/-- An environment in which no process can be opened: every `Process`
construction throws error 5. -/
def demoDeniedEnv : ConsoleEnv :=
  ⟨fun _ => 1000, fun _ => 0, some (some false), true, 4242, true, true,
    fun _ => some 5, some [4, 4242, 1000]⟩

/-- A valid command line: scan process 1000 in `ioc` mode. -/
def demoScanArgs : List String := ["Moneta64.exe", "-p", "1000", "-m", "ioc"]

/-- The arguments from the first one that lowers to `--filter` to the end of
the argument vector (empty when `--filter` is absent). -/
def filterTokens (Args : List String) : List String :=
  Args.dropWhile (fun a => !decide (lowered a = "--filter"))

/-- The flag of the rule category named by a lowered argument, 0 when the
argument names no category. -/
def filterFlagOf (K : ConsoleConsts) (FilterArg : String) : Nat :=
  if FilterArg = "unsigned-modules" then K.FILTER_FLAG_UNSIGNED_MODULES
  else if FilterArg = "metadata-modules" then K.FILTER_FLAG_METADATA_MODULES
  else if FilterArg = "clr-prvx" then K.FILTER_FLAG_CLR_PRVX
  else if FilterArg = "clr-heap" then K.FILTER_FLAG_CLR_HEAP
  else if FilterArg = "wow64-init" then K.FILTER_FLAG_WOW64_INIT
  else 0

/-- The bitwise OR of the flags of the rule categories named in a list of
arguments. -/
def namedFilterFlags (K : ConsoleConsts) (toks : List String) : Nat :=
  toks.foldl (fun f t => f ||| filterFlagOf K (lowered t)) 0

/-- The filter mask in the words of the amended claim: all bits when `*` occurs
among the arguments from the first `--filter` on, otherwise the OR of the flags
of the categories named among those arguments. -/
def filterMask (K : ConsoleConsts) (Args : List String) : Nat :=
  if (filterTokens Args).any (fun t => decide (lowered t = "*")) then 2 ^ 64 - 1
  else namedFilterFlags K (filterTokens Args)

/-- A command line with `--filter clr-heap` followed by `-p *`. -/
def demoFilterArgs : List String :=
  ["Moneta64.exe", "-m", "ioc", "--filter", "clr-heap", "-p", "*"]

/-- A committed, readable and executable image region of 4 GiB on a 64-bit
system: `RegionSize = 0x100000000`. -/
def demoHugeImageMbi : MEMORY_BASIC_INFORMATION :=
  ⟨0x7FF600000000, 0x100000000, MEM_COMMIT, PAGE_EXECUTE_READ, MEM_IMAGE⟩

/-! # Theorems -/

/-! ## Lemmas on the thread loop of the constructor -/

theorem inRegion_iff (Mbi : MEMORY_BASIC_INFORMATION) (p : Nat) :
    inRegion Mbi p = true ↔ Mbi.BaseAddress ≤ p ∧ p < Mbi.BaseAddress + Mbi.RegionSize := by
  simp [inRegion]

theorem foldl_threadStep_fst (K : SubregionFlagConsts) (Mbi : MEMORY_BASIC_INFORMATION)
    (ts : List Thread) (s : List Nat × Nat) :
    (ts.foldl (threadStep K Mbi) s).1 =
      s.1 ++ (ts.filter (fun t => inRegion Mbi t.EntryPoint)).map Thread.Tid := by
  induction ts generalizing s with
  | nil => simp
  | cons t ts ih =>
    rw [List.foldl_cons, ih]
    by_cases h : inRegion Mbi t.EntryPoint = true <;> simp [threadStep, h, List.filter_cons]

theorem foldl_threadStep_testBit (K : SubregionFlagConsts) (Mbi : MEMORY_BASIC_INFORMATION)
    (ts : List Thread) (s : List Nat × Nat) (b : Nat) :
    (ts.foldl (threadStep K Mbi) s).2.testBit b =
      (s.2.testBit b
        || (decide (K.stackBit = b) && ts.any (fun t => inRegion Mbi t.StackAddress))
        || (decide (K.tebBit = b) && ts.any (fun t => inRegion Mbi t.TebAddress))) := by
  induction ts generalizing s with
  | nil => simp
  | cons t ts ih =>
    rw [List.foldl_cons, ih]
    by_cases h1 : inRegion Mbi t.StackAddress = true <;>
    by_cases h2 : inRegion Mbi t.TebAddress = true <;>
    by_cases h3 : K.stackBit = b <;>
    by_cases h4 : K.tebBit = b <;>
    simp [threadStep, h1, h2, h3, h4, SubregionFlagConsts.MEMORY_SUBREGION_FLAG_STACK,
      SubregionFlagConsts.MEMORY_SUBREGION_FLAG_TEB, Nat.testBit_or, Nat.testBit_two_pow]

theorem provenance_threads (K : SubregionFlagConsts) (P : Process)
    (Mbi : MEMORY_BASIC_INFORMATION) :
    (Subregion.provenance K P Mbi).1 =
      (P.Threads.filter (fun t => inRegion Mbi t.EntryPoint)).map Thread.Tid := by
  simp [Subregion.provenance, foldl_threadStep_fst, initialMembers]

theorem provenance_testBit (K : SubregionFlagConsts) (P : Process)
    (Mbi : MEMORY_BASIC_INFORMATION) (b : Nat) :
    (Subregion.provenance K P Mbi).2.testBit b =
      ((decide (K.stackBit = b) && P.Threads.any (fun t => inRegion Mbi t.StackAddress))
        || (decide (K.tebBit = b) && P.Threads.any (fun t => inRegion Mbi t.TebAddress))
        || (decide (K.baseImageBit = b) && inRegion Mbi P.ImageBase)
        || (decide (K.heapBit = b) && decide (Mbi.BaseAddress ∈ P.Heaps))) := by
  by_cases h1 : inRegion Mbi P.ImageBase = true <;>
  by_cases h2 : Mbi.BaseAddress ∈ P.Heaps <;>
  simp [Subregion.provenance, foldl_threadStep_testBit, initialMembers, h1, h2,
    SubregionFlagConsts.MEMORY_SUBREGION_FLAG_BASE_IMAGE,
    SubregionFlagConsts.MEMORY_SUBREGION_FLAG_HEAP, Nat.testBit_or, Nat.testBit_two_pow]

theorem flagConsts_ne (K : SubregionFlagConsts) :
    K.heapBit ≠ K.stackBit ∧ K.heapBit ≠ K.tebBit ∧ K.heapBit ≠ K.baseImageBit ∧
    K.stackBit ≠ K.tebBit ∧ K.stackBit ≠ K.baseImageBit ∧ K.tebBit ≠ K.baseImageBit := by
  have h := K.distinct
  simp only [List.nodup_cons, List.mem_cons, List.mem_singleton, not_or, List.not_mem_nil,
    not_false_eq_true, List.nodup_nil, and_true] at h
  tauto

theorem new_members (K : SubregionFlagConsts) (E : WinEnv) (fuel cached : Nat) (P : Process)
    (Mbi : MEMORY_BASIC_INFORMATION) (s : Subregion)
    (h : Subregion.new K E fuel cached P Mbi = some s) :
    s.Basic = Mbi ∧ s.Threads = (Subregion.provenance K P Mbi).1 ∧
      s.Flags = (Subregion.provenance K P Mbi).2 := by
  unfold Subregion.new at h
  split at h
  · split at h
    · cases h; simp
    · cases h
  · cases h; simp

theorem stack_flag_iff (K : SubregionFlagConsts) (P : Process) (Mbi : MEMORY_BASIC_INFORMATION) :
    flagSet (Subregion.provenance K P Mbi).2 K.stackBit = true ↔
      ∃ t ∈ P.Threads, Mbi.BaseAddress ≤ t.StackAddress ∧
        t.StackAddress < Mbi.BaseAddress + Mbi.RegionSize := by
  obtain ⟨h1, h2, h3, h4, h5, h6⟩ := flagConsts_ne K
  simp [flagSet, provenance_testBit, inRegion_iff, h4.symm, h5.symm, h1]

theorem teb_flag_iff (K : SubregionFlagConsts) (P : Process) (Mbi : MEMORY_BASIC_INFORMATION) :
    flagSet (Subregion.provenance K P Mbi).2 K.tebBit = true ↔
      ∃ t ∈ P.Threads, Mbi.BaseAddress ≤ t.TebAddress ∧
        t.TebAddress < Mbi.BaseAddress + Mbi.RegionSize := by
  obtain ⟨h1, h2, h3, h4, h5, h6⟩ := flagConsts_ne K
  simp [flagSet, provenance_testBit, inRegion_iff, h4, h6.symm, h2]

theorem base_image_flag_iff (K : SubregionFlagConsts) (P : Process)
    (Mbi : MEMORY_BASIC_INFORMATION) :
    flagSet (Subregion.provenance K P Mbi).2 K.baseImageBit = true ↔
      (Mbi.BaseAddress ≤ P.ImageBase ∧ P.ImageBase < Mbi.BaseAddress + Mbi.RegionSize) := by
  obtain ⟨h1, h2, h3, h4, h5, h6⟩ := flagConsts_ne K
  simp [flagSet, provenance_testBit, inRegion_iff, h5, h6, h3]

theorem heap_flag_iff (K : SubregionFlagConsts) (P : Process) (Mbi : MEMORY_BASIC_INFORMATION) :
    flagSet (Subregion.provenance K P Mbi).2 K.heapBit = true ↔ Mbi.BaseAddress ∈ P.Heaps := by
  obtain ⟨h1, h2, h3, h4, h5, h6⟩ := flagConsts_ne K
  simp [flagSet, provenance_testBit, h1.symm, h2.symm, h3.symm]

/-! ## Provenance flags of the constructor -/

/-- C1: the constructor sets the Stack flag exactly when some thread's stack
address lies in the half-open interval `[base, base+size)`, the TEB flag exactly
when some thread's TEB address does, and the BaseImage flag exactly when the
process image base does.  An address equal to `base+size` sets no flag, and on a
region of positive size an address equal to `base` sets its flag.  The flags of
every constructed Subregion are the ones described. -/
theorem subregion_stack_teb_image_flags (K : SubregionFlagConsts) (P : Process)
    (Mbi : MEMORY_BASIC_INFORMATION) :
    (flagSet (Subregion.provenance K P Mbi).2 K.stackBit = true ↔
      ∃ t ∈ P.Threads, Mbi.BaseAddress ≤ t.StackAddress ∧
        t.StackAddress < Mbi.BaseAddress + Mbi.RegionSize) ∧
    (flagSet (Subregion.provenance K P Mbi).2 K.tebBit = true ↔
      ∃ t ∈ P.Threads, Mbi.BaseAddress ≤ t.TebAddress ∧
        t.TebAddress < Mbi.BaseAddress + Mbi.RegionSize) ∧
    (flagSet (Subregion.provenance K P Mbi).2 K.baseImageBit = true ↔
      (Mbi.BaseAddress ≤ P.ImageBase ∧ P.ImageBase < Mbi.BaseAddress + Mbi.RegionSize)) ∧
    ((∀ t ∈ P.Threads, t.StackAddress = Mbi.BaseAddress + Mbi.RegionSize) →
      flagSet (Subregion.provenance K P Mbi).2 K.stackBit = false) ∧
    ((∀ t ∈ P.Threads, t.TebAddress = Mbi.BaseAddress + Mbi.RegionSize) →
      flagSet (Subregion.provenance K P Mbi).2 K.tebBit = false) ∧
    (P.ImageBase = Mbi.BaseAddress + Mbi.RegionSize →
      flagSet (Subregion.provenance K P Mbi).2 K.baseImageBit = false) ∧
    (0 < Mbi.RegionSize → (∃ t ∈ P.Threads, t.StackAddress = Mbi.BaseAddress) →
      flagSet (Subregion.provenance K P Mbi).2 K.stackBit = true) ∧
    (0 < Mbi.RegionSize → (∃ t ∈ P.Threads, t.TebAddress = Mbi.BaseAddress) →
      flagSet (Subregion.provenance K P Mbi).2 K.tebBit = true) ∧
    (0 < Mbi.RegionSize → P.ImageBase = Mbi.BaseAddress →
      flagSet (Subregion.provenance K P Mbi).2 K.baseImageBit = true) ∧
    (∀ (E : WinEnv) (fuel cached : Nat) (s : Subregion),
      Subregion.new K E fuel cached P Mbi = some s →
        s.Flags = (Subregion.provenance K P Mbi).2) := by
  refine ⟨stack_flag_iff K P Mbi, teb_flag_iff K P Mbi, base_image_flag_iff K P Mbi,
    ?_, ?_, ?_, ?_, ?_, ?_, ?_⟩
  · intro h
    rw [Bool.eq_false_iff]
    intro hset
    obtain ⟨t, ht, _, hlt⟩ := (stack_flag_iff K P Mbi).mp hset
    have := h t ht
    omega
  · intro h
    rw [Bool.eq_false_iff]
    intro hset
    obtain ⟨t, ht, _, hlt⟩ := (teb_flag_iff K P Mbi).mp hset
    have := h t ht
    omega
  · intro h
    rw [Bool.eq_false_iff]
    intro hset
    obtain ⟨_, hlt⟩ := (base_image_flag_iff K P Mbi).mp hset
    omega
  · rintro hpos ⟨t, ht, hbase⟩
    exact (stack_flag_iff K P Mbi).mpr ⟨t, ht, by omega, by omega⟩
  · rintro hpos ⟨t, ht, hbase⟩
    exact (teb_flag_iff K P Mbi).mpr ⟨t, ht, by omega, by omega⟩
  · intro hpos hbase
    exact (base_image_flag_iff K P Mbi).mpr ⟨by omega, by omega⟩
  · intro E fuel cached s h
    exact (new_members K E fuel cached P Mbi s h).2.2

/-- C1 at a concrete input: the region `[0x20000, 0x21000)` has positive size and
starts at the stack address of the thread of `demoProcess`, so its Stack flag is
set; the constructed Subregion carries exactly the Stack flag. -/
theorem subregion_stack_teb_image_flags_witness :
    0 < demoStackMbi.RegionSize ∧
    flagSet (Subregion.provenance sampleFlagConsts demoProcess demoStackMbi).2
      sampleFlagConsts.stackBit = true ∧
    (Subregion.new sampleFlagConsts demoWinEnv 0 0 demoProcess demoStackMbi).map
      Subregion.Flags = some 2 :=
  ⟨by decide,
   (subregion_stack_teb_image_flags sampleFlagConsts demoProcess demoStackMbi).2.2.2.2.2.2.1
     (by decide) ⟨⟨7, 0x401000, 0x20000, 0x7000⟩, by decide, by decide⟩,
   by decide⟩

/-- C2, as stated, fails: the heap base 0x11000 lies strictly inside the region
`[0x10000, 0x12000)`, yet the constructed Subregion does not carry the Heap
flag. -/
theorem heap_flag_interior_counterexample :
    (∃ h ∈ demoProcess.Heaps, demoPrivateMbi.BaseAddress ≤ h ∧
      h < demoPrivateMbi.BaseAddress + demoPrivateMbi.RegionSize) ∧
    (Subregion.new sampleFlagConsts demoWinEnv 0 0 demoProcess demoPrivateMbi).map
      (fun s => flagSet s.Flags sampleFlagConsts.heapBit) = some false :=
  ⟨⟨0x11000, by decide, by decide, by decide⟩, by decide⟩

/-- C2 (amended): the constructor sets the Heap flag exactly when some heap base
address of the process equals the region's base address; the flags of every
constructed Subregion are the ones described. -/
theorem subregion_heap_flag (K : SubregionFlagConsts) (P : Process)
    (Mbi : MEMORY_BASIC_INFORMATION) :
    (flagSet (Subregion.provenance K P Mbi).2 K.heapBit = true ↔
      ∃ h ∈ P.Heaps, h = Mbi.BaseAddress) ∧
    (∀ (E : WinEnv) (fuel cached : Nat) (s : Subregion),
      Subregion.new K E fuel cached P Mbi = some s →
        s.Flags = (Subregion.provenance K P Mbi).2) := by
  refine ⟨?_, fun E fuel cached s h => (new_members K E fuel cached P Mbi s h).2.2⟩
  rw [heap_flag_iff]
  simp

/-! ## Thread lists of sibling Subregions -/

theorem mem_provenance_threads (K : SubregionFlagConsts) (P : Process)
    (S : MEMORY_BASIC_INFORMATION) (tid : Nat) :
    tid ∈ (Subregion.provenance K P S).1 ↔
      ∃ t ∈ P.Threads, halfOpen S t.EntryPoint ∧ t.Tid = tid := by
  rw [provenance_threads]
  simp [halfOpen, inRegion_iff, and_assoc]

theorem tid_injective_of_nodup (ts : List Thread) (h : (ts.map Thread.Tid).Nodup)
    (t u : Thread) (ht : t ∈ ts) (hu : u ∈ ts) (e : t.Tid = u.Tid) : t = u :=
  List.inj_on_of_nodup_map h ht hu e

/-- C3: let the sibling region descriptors partition `[R.base, R.base+R.size)`
(their intervals are pairwise disjoint and their union is R's interval) and let
the thread ids of the snapshot be pairwise distinct.  Then the thread list of
each sibling's Subregion is the list of ids of the threads whose entry point
falls within its bounds, in snapshot order; and every thread whose entry point
lies in R is recorded in the thread list of exactly one sibling, the one whose
own interval contains the entry point. -/
theorem thread_entry_containment (K : SubregionFlagConsts) (P : Process)
    (R : MEMORY_BASIC_INFORMATION) (siblings : List MEMORY_BASIC_INFORMATION)
    (hcover : ∀ a, halfOpen R a ↔ ∃ S ∈ siblings, halfOpen S a)
    (hdisj : siblings.Pairwise (fun S T => ∀ a, ¬ (halfOpen S a ∧ halfOpen T a)))
    (htid : (P.Threads.map Thread.Tid).Nodup) :
    (∀ S ∈ siblings, (Subregion.provenance K P S).1 =
      (P.Threads.filter (fun t => decide (halfOpen S t.EntryPoint))).map Thread.Tid) ∧
    (∀ t ∈ P.Threads, halfOpen R t.EntryPoint →
      ∃ i : Fin siblings.length, halfOpen (siblings.get i) t.EntryPoint ∧
        ∀ j : Fin siblings.length,
          t.Tid ∈ (Subregion.provenance K P (siblings.get j)).1 ↔ j = i) ∧
    (∀ (S : MEMORY_BASIC_INFORMATION) (E : WinEnv) (fuel cached : Nat) (s : Subregion),
      Subregion.new K E fuel cached P S = some s →
        s.Threads = (Subregion.provenance K P S).1) := by
  refine ⟨?_, ?_, fun S E fuel cached s h => (new_members K E fuel cached P S s h).2.1⟩
  · intro S _
    rw [provenance_threads]
    congr 2
    funext t
    simp [halfOpen, inRegion]
  · intro t ht hR
    obtain ⟨S, hS, hin⟩ := (hcover t.EntryPoint).mp hR
    obtain ⟨i, rfl⟩ := List.mem_iff_get.mp hS
    refine ⟨i, hin, fun j => ⟨fun hj => ?_, fun hj => ?_⟩⟩
    · obtain ⟨u, hu, huin, hutid⟩ := (mem_provenance_threads K P _ _).mp hj
      have hut : u = t := tid_injective_of_nodup P.Threads htid u t hu ht hutid
      subst hut
      by_contra hne
      rw [List.pairwise_iff_get] at hdisj
      rcases Nat.lt_or_gt_of_ne (fun h => hne (Fin.ext h)) with hlt | hgt
      · exact hdisj j i hlt u.EntryPoint ⟨huin, hin⟩
      · exact hdisj i j hgt u.EntryPoint ⟨hin, huin⟩
    · subst hj
      exact (mem_provenance_threads K P _ _).mpr ⟨t, ht, hin, rfl⟩

/-- C3 at a concrete input: the two slices `[0x400000, 0x401000)` and
`[0x401000, 0x402000)` partition the image region; the thread 7 with entry point
0x401000 is recorded by the second slice only. -/
theorem thread_entry_containment_witness :
    ∃ i : Fin demoSiblings.length, halfOpen (demoSiblings.get i) 0x401000 ∧
      ∀ j : Fin demoSiblings.length,
        7 ∈ (Subregion.provenance sampleFlagConsts demoProcess (demoSiblings.get j)).1 ↔
          j = i :=
  (thread_entry_containment sampleFlagConsts demoProcess demoImageRegion demoSiblings
    (by
      intro a
      simp [halfOpen, demoImageRegion, demoSiblings]
      omega)
    (by
      simp [halfOpen, demoSiblings]
      intro a
      omega)
    (by decide)).2.1 ⟨7, 0x401000, 0x20000, 0x7000⟩ (by decide) (by decide)

/-! ## `PageExecutable` -/

theorem PageExecutable_iff (p : Nat) :
    PageExecutable p = true ↔
      p = PAGE_EXECUTE ∨ p = PAGE_EXECUTE_READ ∨ p = PAGE_EXECUTE_READWRITE := by
  simp [PageExecutable, or_assoc]

/-- C4, as stated, fails: `PAGE_EXECUTE_READ | PAGE_GUARD` grants execute
permission (the `PAGE_EXECUTE_READ` bit is set) and `PageExecutable` returns
false for it. -/
theorem PageExecutable_guard_counterexample :
    grantsExecute (PAGE_EXECUTE_READ ||| PAGE_GUARD) = true ∧
    PageExecutable (PAGE_EXECUTE_READ ||| PAGE_GUARD) = false := by
  decide

/-- C4 (amended): `PageExecutable p` is true when `p` is exactly `PAGE_EXECUTE`,
`PAGE_EXECUTE_READ` or `PAGE_EXECUTE_READWRITE`; it is false for every value
with no execute bit set; and it is false when one of those three values is
combined with any of the modifier bits `PAGE_GUARD`, `PAGE_NOCACHE`,
`PAGE_WRITECOMBINE`. -/
theorem PageExecutable_exact_values :
    (∀ p, p = PAGE_EXECUTE ∨ p = PAGE_EXECUTE_READ ∨ p = PAGE_EXECUTE_READWRITE →
      PageExecutable p = true) ∧
    (∀ p, grantsExecute p = false → PageExecutable p = false) ∧
    (∀ p ∈ [PAGE_EXECUTE, PAGE_EXECUTE_READ, PAGE_EXECUTE_READWRITE],
      ∀ m ∈ modifierCombinations, PageExecutable (p ||| m) = false) := by
  refine ⟨fun p h => (PageExecutable_iff p).mpr h, ?_, by decide⟩
  intro p hp
  rw [Bool.eq_false_iff]
  intro hx
  rcases (PageExecutable_iff p).mp hx with h | h | h <;> subst h <;> revert hp <;> decide

/-- The value `PAGE_EXECUTE_WRITECOPY` has an execute bit set and is none of the
three values that `PageExecutable` compares with. -/
theorem PageExecutable_writecopy :
    grantsExecute PAGE_EXECUTE_WRITECOPY = true ∧
    PageExecutable PAGE_EXECUTE_WRITECOPY = false := by
  decide

/-! ## Private size and working-set queries -/

/-- C5: for every region that is not committed, or whose protection is
`PAGE_NOACCESS`, the constructor returns a Subregion, issues no working-set
query and leaves the private size at 0 (whatever the loop bound `fuel`); hence a
constructed Subregion has a non-zero private size only if its region is
committed with a protection other than `PAGE_NOACCESS`. -/
theorem private_size_skipped (K : SubregionFlagConsts) (E : WinEnv) (fuel cached : Nat)
    (P : Process) (Mbi : MEMORY_BASIC_INFORMATION) :
    ((Mbi.State ≠ MEM_COMMIT ∨ Mbi.Protect = PAGE_NOACCESS) →
      ∃ s, Subregion.new K E fuel cached P Mbi = some s ∧ s.queried = [] ∧
        s.PrivateSize = 0) ∧
    (∀ s, Subregion.new K E fuel cached P Mbi = some s → s.PrivateSize ≠ 0 →
      Mbi.State = MEM_COMMIT ∧ Mbi.Protect ≠ PAGE_NOACCESS) := by
  have key : (Mbi.State ≠ MEM_COMMIT ∨ Mbi.Protect = PAGE_NOACCESS) →
      ∃ s, Subregion.new K E fuel cached P Mbi = some s ∧ s.queried = [] ∧
        s.PrivateSize = 0 := by
    intro h
    unfold Subregion.new
    by_cases hc : Mbi.State = MEM_COMMIT ∧ Mbi.MemType ≠ MEM_PRIVATE
    · have hq : ¬ (Mbi.State = MEM_COMMIT ∧ Mbi.Protect ≠ PAGE_NOACCESS ∧
          Mbi.MemType = MEM_IMAGE) := by
        rcases h with h | h
        · exact fun hh => h hh.1
        · exact fun hh => hh.2.1 h
      have hQ : QueryPrivateSize E fuel cached Mbi =
          some ⟨0, refreshBuildNumber E cached, []⟩ := by
        unfold QueryPrivateSize
        exact if_neg hq
      rw [if_pos hc, hQ]
      exact ⟨_, rfl, rfl, rfl⟩
    · simp [hc, initialMembers]
  refine ⟨key, fun s hs hne => ?_⟩
  by_contra hcon
  have hcase : Mbi.State ≠ MEM_COMMIT ∨ Mbi.Protect = PAGE_NOACCESS := by
    by_cases h1 : Mbi.State = MEM_COMMIT
    · right
      by_contra h2
      exact hcon ⟨h1, h2⟩
    · left; exact h1
  obtain ⟨s1, hs1, _, hz⟩ := key hcase
  rw [hs] at hs1
  cases hs1
  exact hne hz

/-- C5 at concrete inputs: a reserved region and a committed `PAGE_NOACCESS`
image region are constructed without any working-set query and with private
size 0, on a system where every queried page would count as private. -/
theorem private_size_skipped_witness :
    (∃ s, Subregion.new sampleFlagConsts demoPrivateWinEnv 0 0 demoProcess demoReservedMbi
        = some s ∧ s.queried = [] ∧ s.PrivateSize = 0) ∧
    (∃ s, Subregion.new sampleFlagConsts demoPrivateWinEnv 0 0 demoProcess demoNoAccessMbi
        = some s ∧ s.queried = [] ∧ s.PrivateSize = 0) :=
  ⟨(private_size_skipped sampleFlagConsts demoPrivateWinEnv 0 0 demoProcess
      demoReservedMbi).1 (Or.inl (by decide)),
   (private_size_skipped sampleFlagConsts demoPrivateWinEnv 0 0 demoProcess
      demoNoAccessMbi).1 (Or.inr (by decide))⟩

/-! ## The page loop of `QueryPrivateSize` -/

theorem lt_pageCount_iff (RegionSize k : Nat) :
    k < pageCount RegionSize ↔ k * 0x1000 < RegionSize := by
  unfold pageCount
  omega

theorem pageBody_eq (E : WinEnv) (build : Nat) (Mbi : MEMORY_BASIC_INFORMATION) (k acc : Nat)
    (hacc : acc + 0x1000 < 2 ^ 32) :
    pageBody E build (Mbi.BaseAddress + k * 0x1000) acc =
      acc + 0x1000 * ((if pageCountsPrivate E build Mbi k then 1 else 0) : Nat) := by
  unfold pageBody pageCountsPrivate
  cases hq : E.K32QueryWorkingSetEx (Mbi.BaseAddress + k * 0x1000) with
  | none => simp
  | some attrs =>
    have hacc2 : acc + 4096 < 4294967296 := by norm_num at hacc; exact hacc
    by_cases hb : build ≥ 16299
    · cases hs : attrs.SharedOriginal
      · simp [hb, hs]; omega
      · simp [hb, hs]
    · cases hs : attrs.Shared
      · simp [hb, hs]; omega
      · simp [hb, hs]

theorem pageLoop_from (E : WinEnv) (build : Nat) (Mbi : MEMORY_BASIC_INFORMATION)
    (hsize : Mbi.RegionSize ≤ 0xFFFFF000) :
    ∀ (m k fuel acc : Nat) (tr : List Nat), k + m = pageCount Mbi.RegionSize → m < fuel →
      acc ≤ 0x1000 * k →
      pageLoop E build Mbi fuel (k * 0x1000) acc tr =
        some (acc + 0x1000 *
            ((List.range' k m).filter (pageCountsPrivate E build Mbi)).length,
          tr ++ (List.range' k m).map (fun j => Mbi.BaseAddress + j * 0x1000)) := by
  intro m
  induction m with
  | zero =>
    intro k fuel acc tr hk hfuel _
    obtain ⟨f, rfl⟩ : ∃ f, fuel = f + 1 := ⟨fuel - 1, by omega⟩
    have hnot : ¬ (k * 0x1000 < Mbi.RegionSize) := by
      rw [← lt_pageCount_iff]; omega
    simp [pageLoop, hnot]
  | succ m ih =>
    intro k fuel acc tr hk hfuel hacc
    obtain ⟨f, rfl⟩ : ∃ f, fuel = f + 1 := ⟨fuel - 1, by omega⟩
    have hlt : k * 0x1000 < Mbi.RegionSize := by
      rw [← lt_pageCount_iff]; omega
    have hoff : (k * 0x1000 + 0x1000) % 2 ^ 32 = (k + 1) * 0x1000 := by
      norm_num
      omega
    have hbody := pageBody_eq E build Mbi k acc (by norm_num; omega)
    rw [pageLoop, if_pos hlt]
    simp only []
    rw [hoff, hbody, ih (k + 1) f _ _ (by omega) (by omega)
      (by split <;> omega)]
    by_cases hp : pageCountsPrivate E build Mbi k = true
    · simp [List.range'_succ, List.filter_cons, hp]
      omega
    · simp [List.range'_succ, List.filter_cons, hp]

/-- C9: for a committed Image-type region with a protection other than
`PAGE_NOACCESS` and `RegionSize <= 0xFFFFF000`, `QueryPrivateSize` returns (as
soon as the loop bound exceeds the number of pages) 0x1000 times the number of
page offsets `k * 0x1000 < RegionSize` at which the working-set query succeeds
and the sharing bit is clear, the sharing bit being chosen by the cached build
number (`SharedOriginal` from 16299 on, `Shared` before); it queries each such
page offset once, in order; the result is a multiple of 0x1000 and at most
`RegionSize` rounded up to a page. -/
theorem QueryPrivateSize_counts_private_pages (E : WinEnv) (fuel cached : Nat)
    (Mbi : MEMORY_BASIC_INFORMATION)
    (hstate : Mbi.State = MEM_COMMIT) (hprot : Mbi.Protect ≠ PAGE_NOACCESS)
    (htype : Mbi.MemType = MEM_IMAGE) (hsize : Mbi.RegionSize ≤ 0xFFFFF000)
    (hfuel : pageCount Mbi.RegionSize < fuel) :
    ∃ r, QueryPrivateSize E fuel cached Mbi = some r ∧
      r.dwBuildNumber = refreshBuildNumber E cached ∧
      r.dwPrivateSize = 0x1000 * privatePageCount E r.dwBuildNumber Mbi ∧
      (∀ k, k < pageCount Mbi.RegionSize ↔ k * 0x1000 < Mbi.RegionSize) ∧
      r.queried = (List.range (pageCount Mbi.RegionSize)).map
        (fun k => Mbi.BaseAddress + k * 0x1000) ∧
      0x1000 ∣ r.dwPrivateSize ∧
      r.dwPrivateSize ≤ 0x1000 * pageCount Mbi.RegionSize := by
  have hloop := pageLoop_from E (refreshBuildNumber E cached) Mbi hsize
    (pageCount Mbi.RegionSize) 0 fuel 0 [] (by omega) hfuel (by omega)
  simp only [Nat.zero_mul, Nat.zero_add, List.nil_append, ← List.range_eq_range'] at hloop
  refine ⟨⟨0x1000 * privatePageCount E (refreshBuildNumber E cached) Mbi,
    refreshBuildNumber E cached, _⟩, ?_, rfl, rfl, lt_pageCount_iff _, rfl,
    Dvd.intro _ rfl, ?_⟩
  · unfold QueryPrivateSize
    simp only []
    rw [if_pos ⟨hstate, hprot, htype⟩, hloop]
    rfl
  · apply Nat.mul_le_mul_left
    unfold privatePageCount
    calc ((List.range (pageCount Mbi.RegionSize)).filter _).length
        ≤ (List.range (pageCount Mbi.RegionSize)).length := List.length_filter_le _ _
      _ = pageCount Mbi.RegionSize := List.length_range _

/-- C9 at a concrete input: a three-page image region whose first page is
private, whose second page is shared and whose third page cannot be queried has
private size 0x1000. -/
theorem QueryPrivateSize_counts_private_pages_witness :
    ∃ r, QueryPrivateSize demoMixedWinEnv 4 0 demoImageMbi = some r ∧
      r.dwBuildNumber = refreshBuildNumber demoMixedWinEnv 0 ∧
      r.dwPrivateSize = 0x1000 * privatePageCount demoMixedWinEnv r.dwBuildNumber demoImageMbi ∧
      (∀ k, k < pageCount demoImageMbi.RegionSize ↔ k * 0x1000 < demoImageMbi.RegionSize) ∧
      r.queried = (List.range (pageCount demoImageMbi.RegionSize)).map
        (fun k => demoImageMbi.BaseAddress + k * 0x1000) ∧
      0x1000 ∣ r.dwPrivateSize ∧
      r.dwPrivateSize ≤ 0x1000 * pageCount demoImageMbi.RegionSize :=
  QueryPrivateSize_counts_private_pages demoMixedWinEnv 4 0 demoImageMbi
    (by decide) (by decide) (by decide) (by decide) (by decide)

/-! ## The argument loop of `wmain` -/

theorem parseArg_cons_isSome (E : ConsoleEnv) (K : ConsoleConsts) (cur next : String)
    (rest : List String) (s : ParseState) :
    ∃ s1, parseArg E K cur (next :: rest) s = some s1 := by
  unfold parseArg derefNext
  simp only [List.head?_cons]
  split_ifs <;> exact ⟨_, rfl⟩

theorem parseArg_nil_eq_none_iff (E : ConsoleEnv) (K : ConsoleConsts) (cur : String)
    (s : ParseState) :
    parseArg E K cur [] s = none ↔ takesValue cur = true := by
  unfold parseArg derefNext takesValue
  simp only [List.head?_nil]
  split_ifs <;> simp_all

theorem parseLoop_eq_none_iff (E : ConsoleEnv) (K : ConsoleConsts) (Args : List String) :
    ∀ s : ParseState, parseLoop E K Args s = none ↔ lastTakesValue Args = true := by
  induction Args with
  | nil => intro s; simp [parseLoop, lastTakesValue]
  | cons cur rest ih =>
    intro s
    cases rest with
    | nil =>
      cases h : parseArg E K cur [] s with
      | none =>
        have := (parseArg_nil_eq_none_iff E K cur s).mp h
        simp [parseLoop, h, lastTakesValue, this]
      | some s1 =>
        have hne : ¬ takesValue cur = true := fun ht => by
          rw [(parseArg_nil_eq_none_iff E K cur s).mpr ht] at h
          cases h
        simp [parseLoop, h, lastTakesValue, hne]
    | cons next rest2 =>
      obtain ⟨s1, h1⟩ := parseArg_cons_isSome E K cur next rest2 s
      rw [parseLoop, h1]
      simp only []
      rw [ih s1]
      simp [lastTakesValue, List.getLast?_cons_cons]

theorem parseArgs_eq_none_iff (E : ConsoleEnv) (K : ConsoleConsts) (Args : List String) :
    parseArgs E K Args = none ↔ lastTakesValue Args = true :=
  parseLoop_eq_none_iff E K Args ParseState.init

theorem parseArgs_isSome (E : ConsoleEnv) (K : ConsoleConsts) (Args : List String)
    (h : lastTakesValue Args = false) : ∃ s, parseArgs E K Args = some s := by
  cases hp : parseArgs E K Args with
  | none =>
    rw [(parseArgs_eq_none_iff E K Args).mp hp] at h
    cases h
  | some s => exact ⟨s, rfl⟩

/-- C10 fails on the code: for the argument vector `Moneta64.exe -m ioc -p` the
`-p` branch evaluates `*(i + 1)` with `i + 1 == Args.end()`, a read past the end
of the argument vector; the same happens whenever the last argument is `-p`,
`-m`, `--address` or `--region-size`, and only then. -/
theorem parse_reads_past_end (E : ConsoleEnv) (K : ConsoleConsts) :
    parseArgs E K ["Moneta64.exe", "-m", "ioc", "-p"] = none ∧
    wmain E K ["Moneta64.exe", "-m", "ioc", "-p"] = none ∧
    (∀ Args, parseArgs E K Args = none ↔ lastTakesValue Args = true) := by
  have h : parseArgs E K ["Moneta64.exe", "-m", "ioc", "-p"] = none :=
    (parseArgs_eq_none_iff E K _).mpr (by decide)
  exact ⟨h, by simp [wmain, h], parseArgs_eq_none_iff E K⟩

/-! ## Exit status and validation of `wmain` -/

theorem scanOne_afterValidation (E : ConsoleEnv) (K : ConsoleConsts) (s : ParseState)
    (pid : Nat) : ∀ ev ∈ scanOne E K s pid,
      ev.afterValidation = true ∧ ∀ o m a r f, ev ≠ Event.NewScannerContext o m a r f := by
  intro ev hev
  unfold scanOne at hev
  split at hev
  · simp at hev
    rcases hev with rfl | rfl <;> simp [Event.afterValidation]
  · simp at hev
    rcases hev with rfl | rfl | ⟨_, rfl⟩ <;> simp [Event.afterValidation]

theorem scanAll_afterValidation (E : ConsoleEnv) (K : ConsoleConsts) (s : ParseState)
    (pids : List Nat) : ∀ ev ∈ scanAll E K s pids,
      ev.afterValidation = true ∧ ∀ o m a r f, ev ≠ Event.NewScannerContext o m a r f := by
  induction pids with
  | nil => simp [scanAll]
  | cons pid rest ih =>
    intro ev hev
    simp only [scanAll, List.mem_append] at hev
    rcases hev with hev | hev
    · split at hev
      · exact scanOne_afterValidation E K s pid ev hev
      · simp at hev
    · exact ih ev hev

theorem runScan_events (E : ConsoleEnv) (K : ConsoleConsts) (s : ParseState) :
    ∀ ev ∈ runScan E K s, ev.afterValidation = true ∧
      ∀ o m a r f, ev = Event.NewScannerContext o m a r f →
        o = s.qwOptFlags ∧ m = s.Mst ∧ a = s.pAddress ∧ r = s.dwRegionSize ∧
          f = s.qwFilterFlags := by
  intro ev hev
  unfold runScan at hev
  simp only [List.mem_append, List.mem_singleton] at hev
  rcases hev with (((hev | hev) | hev) | hev) | hev
  · subst hev; simp [Event.afterValidation]
  · split at hev
    · simp at hev; subst hev; simp [Event.afterValidation]
    · simp at hev
  · subst hev
    refine ⟨by simp [Event.afterValidation], ?_⟩
    intro o m a r f h
    cases h
    exact ⟨rfl, rfl, rfl, rfl, rfl⟩
  · have hno : ev.afterValidation = true ∧
        ∀ o m a r f, ev ≠ Event.NewScannerContext o m a r f := by
      split at hev
      · simp only [List.mem_append] at hev
        rcases hev with hev | hev
        · exact scanOne_afterValidation E K s _ ev hev
        · split at hev
          · simp at hev; subst hev; simp [Event.afterValidation]
          · simp at hev
      · split at hev
        · simp only [List.mem_append] at hev
          rcases hev with hev | hev
          · exact scanAll_afterValidation E K s _ ev hev
          · split at hev
            · simp at hev; subst hev; simp [Event.afterValidation]
            · simp at hev
        · simp at hev; subst hev; simp [Event.afterValidation]
    exact ⟨hno.1, fun o m a r f h => absurd h (hno.2 o m a r f)⟩
  · subst hev; simp [Event.afterValidation]

theorem runScan_mem (E : ConsoleEnv) (K : ConsoleConsts) (s : ParseState) :
    Event.GrantSeDebug E.GrantSelfSeDebug ∈ runScan E K s ∧
    Event.NewScannerContext s.qwOptFlags s.Mst s.pAddress s.dwRegionSize s.qwFilterFlags
      ∈ runScan E K s ∧
    Event.ScanCompleted ∈ runScan E K s := by
  unfold runScan
  simp

/-- The shape of the result of `wmain` once the argument loop has produced the
locals `s`. -/
theorem wmain_of_parse (E : ConsoleEnv) (K : ConsoleConsts) (Args : List String)
    (s : ParseState) (hs : parseArgs E K Args = some s) :
    wmain E K Args =
      if wow64Gate E then
        some ((0 : Int), bannerEvents s ++ [Event.Wow64Warning])
      else if Args.length < 5 then
        some ((0 : Int), bannerEvents s ++ usageEvents E)
      else
        match validate E s with
        | some rejection => some ((0 : Int), bannerEvents s ++ [rejection])
        | none => some ((1 : Int), bannerEvents s ++ runScan E K s) := by
  unfold wmain
  rw [hs]

theorem validate_some_cases (E : ConsoleEnv) (s : ParseState) (ev : Event)
    (h : validate E s = some ev) :
    ev = Event.RejectProcType ∨ ev = Event.RejectSelfTarget ∨
      ev = Event.RejectMemorySelection ∨ ev = Event.RejectMissingAddress := by
  unfold validate at h
  split_ifs at h <;> cases h <;> simp

theorem mem_bannerEvents (s : ParseState) : ∀ ev ∈ bannerEvents s, ev = Event.Banner := by
  unfold bannerEvents
  cases s.bSuppressBanner <;> simp

theorem banner_not_afterValidation (s : ParseState) :
    ∀ ev ∈ bannerEvents s, ev.afterValidation = false := by
  unfold bannerEvents
  cases s.bSuppressBanner <;> simp [Event.afterValidation]

theorem usage_not_afterValidation (E : ConsoleEnv) :
    ∀ ev ∈ usageEvents E, ev.afterValidation = false := by
  unfold usageEvents
  cases E.usageResource <;> simp [Event.afterValidation]

theorem wmain_returns (E : ConsoleEnv) (K : ConsoleConsts) (Args : List String)
    (h : lastTakesValue Args = false) :
    ∃ s code tr, parseArgs E K Args = some s ∧ wmain E K Args = some (code, tr) := by
  obtain ⟨s, hs⟩ := parseArgs_isSome E K Args h
  refine ⟨s, ?_⟩
  rw [wmain_of_parse E K Args s hs]
  by_cases hg : wow64Gate E = true
  · simp [hg, hs]
  · by_cases hl : Args.length < 5
    · simp [hg, hl, hs]
    · cases hv : validate E s <;> simp [hg, hl, hs]

/-- Exit status on the argument vectors that the loop parses within bounds:
when the argument loop stays inside the argument vector, `wmain` returns an
exit status.  That status is 0 when fewer than 5 arguments were
given or the usage text is displayed, 0 when the input validation fails, and 1
when validation passes and the scan runs to completion (on at least 5 arguments
and without the Wow64 exit the scan does run to completion), also when mapping
a target process's address space fails. -/
theorem wmain_exit_status (E : ConsoleEnv) (K : ConsoleConsts) (Args : List String) :
    (lastTakesValue Args = false →
      ∃ s code tr, parseArgs E K Args = some s ∧ wmain E K Args = some (code, tr)) ∧
    (∀ s code tr, parseArgs E K Args = some s → wmain E K Args = some (code, tr) →
      (Args.length < 5 → code = 0) ∧
      (Event.Usage ∈ tr → code = 0) ∧
      (validate E s ≠ none → code = 0) ∧
      (5 ≤ Args.length → wow64Gate E = false → validate E s = none →
        code = 1 ∧ Event.ScanCompleted ∈ tr) ∧
      (Event.ScanCompleted ∈ tr → code = 1) ∧
      (∀ pid nError, Event.MapFailed pid nError ∈ tr → code = 1)) := by
  refine ⟨wmain_returns E K Args, ?_⟩
  · intro s code tr hs hres
    rw [wmain_of_parse E K Args s hs] at hres
    have hb := banner_not_afterValidation s
    have hu := usage_not_afterValidation E
    have hnotin : ∀ (l : List Event) (ev : Event), ev.afterValidation = true →
        (∀ x ∈ l, x.afterValidation = false) → ev ∉ bannerEvents s ++ l := by
      intro l ev hev hl hmem
      rcases List.mem_append.mp hmem with h | h
      · rw [hb _ h] at hev; cases hev
      · rw [hl _ h] at hev; cases hev
    by_cases hgate : wow64Gate E = true
    · rw [if_pos hgate] at hres
      cases hres
      refine ⟨fun _ => rfl, fun _ => rfl, fun _ => rfl, ?_, ?_, ?_⟩
      · intro _ hg; rw [hgate] at hg; cases hg
      · intro hmem
        exact absurd hmem (hnotin _ _ rfl (by simp [Event.afterValidation]))
      · intro pid e hmem
        exact absurd hmem (hnotin _ _ rfl (by simp [Event.afterValidation]))
    · rw [if_neg hgate] at hres
      by_cases hlen : Args.length < 5
      · rw [if_pos hlen] at hres
        cases hres
        refine ⟨fun _ => rfl, fun _ => rfl, fun _ => rfl, ?_, ?_, ?_⟩
        · intro h5; omega
        · intro hmem
          exact absurd hmem (hnotin _ _ rfl hu)
        · intro pid e hmem
          exact absurd hmem (hnotin _ _ rfl hu)
      · rw [if_neg hlen] at hres
        cases hv : validate E s with
        | some rej =>
          rw [hv] at hres
          cases hres
          have hrej : ∀ x ∈ [rej], x.afterValidation = false := by
            intro x hx
            simp at hx
            subst hx
            rcases validate_some_cases E s x hv with h | h | h | h <;> subst h <;> rfl
          refine ⟨fun _ => rfl, fun _ => rfl, fun _ => rfl, ?_, ?_, ?_⟩
          · intro _ _ h; cases h
          · intro hmem
            exact absurd hmem (hnotin _ _ rfl hrej)
          · intro pid e hmem
            exact absurd hmem (hnotin _ _ rfl hrej)
        | none =>
          rw [hv] at hres
          cases hres
          refine ⟨fun h => absurd h hlen, ?_, fun h => absurd rfl h, ?_, fun _ => rfl,
            fun _ _ _ => rfl⟩
          · intro hmem
            rcases List.mem_append.mp hmem with h | h
            · have := mem_bannerEvents s _ h
              cases this
            · have := (runScan_events E K s _ h).1
              simp [Event.afterValidation] at this
          · intro _ _ _
            exact ⟨rfl, List.mem_append.mpr (Or.inr (runScan_mem E K s).2.2)⟩

/-- Exit status at concrete inputs: the command line `Moneta64.exe -p 1000 -m ioc` is
parsed within bounds and `wmain` returns; it returns 1 both when process 1000
is scanned and when mapping its address space fails with error 5, and 0 for the
bare command line and for a command line without `-m`. -/
theorem wmain_exit_status_witness :
    (∃ s code tr, parseArgs demoConsoleEnv sampleConsoleConsts demoScanArgs = some s ∧
      wmain demoConsoleEnv sampleConsoleConsts demoScanArgs = some (code, tr)) ∧
    wmain demoConsoleEnv sampleConsoleConsts demoScanArgs =
      some (1, [Event.Banner, Event.GrantSeDebug true,
        Event.NewScannerContext 0 MemorySelection_t.Ioc 0 0 0,
        Event.ProcessConstruct 1000, Event.Enumerate 1000, Event.ScanCompleted]) ∧
    wmain demoDeniedEnv sampleConsoleConsts demoScanArgs =
      some (1, [Event.Banner, Event.GrantSeDebug true,
        Event.NewScannerContext 0 MemorySelection_t.Ioc 0 0 0,
        Event.ProcessConstruct 1000, Event.MapFailed 1000 5, Event.ScanCompleted]) ∧
    wmain demoConsoleEnv sampleConsoleConsts ["Moneta64.exe"] =
      some (0, [Event.Banner, Event.Usage]) ∧
    wmain demoConsoleEnv sampleConsoleConsts ["Moneta64.exe", "-p", "1000", "-d", "-d"] =
      some (0, [Event.Banner, Event.RejectMemorySelection]) :=
  ⟨(wmain_exit_status demoConsoleEnv sampleConsoleConsts demoScanArgs).1 (by decide),
   by decide, by decide, by decide, by decide⟩

/-- C6 fails on the code: the argument vector `Moneta64.exe -p` has fewer than 5
arguments, so the claim gives it the exit status 0 of the usage display; but the
argument loop runs before the test `nArgc < 5`, and at `-p` it evaluates
`*(i + 1)` past the end of the vector (Console.cpp 70), so `wmain` produces no
exit status.  `wmain` fails to produce a status exactly for the argument vectors
whose last element is `-p`, `-m`, `--address` or `--region-size`; for every
other argument vector it returns, with status 0 for fewer than 5 arguments, for
the usage display and for a failed validation, and status 1 after a completed
scan, also when mapping a target process fails. -/
theorem wmain_trailing_switch_no_status (E : ConsoleEnv) (K : ConsoleConsts) :
    ["Moneta64.exe", "-p"].length < 5 ∧
    wmain E K ["Moneta64.exe", "-p"] = none ∧
    (∀ Args, wmain E K Args = none ↔ lastTakesValue Args = true) ∧
    (∀ Args, lastTakesValue Args = false →
      ∃ s code tr, parseArgs E K Args = some s ∧ wmain E K Args = some (code, tr) ∧
        (Args.length < 5 → code = 0) ∧
        (Event.Usage ∈ tr → code = 0) ∧
        (validate E s ≠ none → code = 0) ∧
        (5 ≤ Args.length → wow64Gate E = false → validate E s = none →
          code = 1 ∧ Event.ScanCompleted ∈ tr) ∧
        (Event.ScanCompleted ∈ tr → code = 1) ∧
        (∀ pid nError, Event.MapFailed pid nError ∈ tr → code = 1)) := by
  have hnone : ∀ Args, wmain E K Args = none ↔ lastTakesValue Args = true := by
    intro Args
    constructor
    · intro h
      by_contra hl
      obtain ⟨s, code, tr, _, hw⟩ := wmain_returns E K Args (by simpa using hl)
      rw [hw] at h
      cases h
    · intro h
      have hp := (parseArgs_eq_none_iff E K Args).mpr h
      simp [wmain, hp]
  refine ⟨by decide, (hnone _).mpr (by decide), hnone, ?_⟩
  intro Args hl
  obtain ⟨s, code, tr, hs, hw⟩ := wmain_returns E K Args hl
  exact ⟨s, code, tr, hs, hw, (wmain_exit_status E K Args).2 s code tr hs hw⟩

/-! ## What the argument loop stores in the locals -/

theorem parseArg_ProcType (E : ConsoleEnv) (K : ConsoleConsts) (cur : String)
    (rest : List String) (s s1 : ParseState) (h : parseArg E K cur rest s = some s1) :
    s1.ProcType = SelectedProcess_t.InvalidPid ↔
      s.ProcType = SelectedProcess_t.InvalidPid ∧ lowered cur ≠ "-p" := by
  unfold parseArg at h
  simp only [] at h
  split_ifs at h <;> (try split at h) <;> (try split_ifs at h) <;>
    (try cases h) <;> simp_all

theorem parseArg_Mst (E : ConsoleEnv) (K : ConsoleConsts) (cur : String)
    (rest : List String) (s s1 : ParseState) (h : parseArg E K cur rest s = some s1) :
    s1.Mst = MemorySelection_t.Invalid ↔
      s.Mst = MemorySelection_t.Invalid ∧
        (decide (lowered cur = "-m") &&
          (match rest.head? with
           | some next => decide (next ∈ memorySelections)
           | none => false)) = false := by
  unfold parseArg derefNext at h
  simp only [] at h
  split_ifs at h <;> (try split at h) <;> (try split_ifs at h) <;>
    (try cases h) <;> simp_all [memorySelections]

theorem parseArg_qwFilterFlags (E : ConsoleEnv) (K : ConsoleConsts) (cur : String)
    (rest : List String) (s s1 : ParseState) (h : parseArg E K cur rest s = some s1) :
    s1.qwFilterFlags =
      if lowered cur = "--filter" then filterLoop K (cur :: rest) s.qwFilterFlags
      else s.qwFilterFlags := by
  unfold parseArg at h
  simp only [] at h
  split_ifs at h <;> (try split at h) <;> (try split_ifs at h) <;>
    (try cases h) <;> simp_all

theorem parseLoop_ProcType (E : ConsoleEnv) (K : ConsoleConsts) (Args : List String) :
    ∀ s s1 : ParseState, parseLoop E K Args s = some s1 →
      (s1.ProcType = SelectedProcess_t.InvalidPid ↔
        s.ProcType = SelectedProcess_t.InvalidPid ∧ givesTarget Args = false) := by
  induction Args with
  | nil =>
    intro s s1 h
    simp only [parseLoop, Option.some.injEq] at h
    subst h
    simp [givesTarget]
  | cons cur rest ih =>
    intro s s1 h
    rw [parseLoop] at h
    cases hp : parseArg E K cur rest s with
    | none => rw [hp] at h; cases h
    | some s2 =>
      rw [hp] at h
      simp only [] at h
      rw [ih s2 s1 h, parseArg_ProcType E K cur rest s s2 hp]
      simp [givesTarget, and_assoc]

theorem parseLoop_Mst (E : ConsoleEnv) (K : ConsoleConsts) (Args : List String) :
    ∀ s s1 : ParseState, parseLoop E K Args s = some s1 →
      (s1.Mst = MemorySelection_t.Invalid ↔
        s.Mst = MemorySelection_t.Invalid ∧ givesMemorySelection Args = false) := by
  induction Args with
  | nil =>
    intro s s1 h
    simp only [parseLoop, Option.some.injEq] at h
    subst h
    simp [givesMemorySelection]
  | cons cur rest ih =>
    intro s s1 h
    rw [parseLoop] at h
    cases hp : parseArg E K cur rest s with
    | none => rw [hp] at h; cases h
    | some s2 =>
      rw [hp] at h
      simp only [] at h
      rw [ih s2 s1 h, parseArg_Mst E K cur rest s s2 hp, givesMemorySelection,
        Bool.or_eq_false_iff, and_assoc]

/-- C7, as stated, fails: for the five arguments `Moneta64.exe -p 1000 -m ioc`
none of the rejection conditions holds (a target and a valid memory selection
are given, the pid differs from the scanner's own, `ioc` needs no address), yet
in a 32-bit scanner on a 64-bit system `wmain` returns 0 after the Wow64 warning
and no scanning begins. -/
theorem wmain_wow64_counterexample :
    5 ≤ demoScanArgs.length ∧
    (∃ s, parseArgs demoWow64Env sampleConsoleConsts demoScanArgs = some s ∧
      validate demoWow64Env s = none) ∧
    wmain demoWow64Env sampleConsoleConsts demoScanArgs =
      some (0, [Event.Banner, Event.Wow64Warning]) := by
  refine ⟨by decide, ⟨⟨SelectedProcess_t.SpecificPid, MemorySelection_t.Ioc, 1000, 0, 0,
    false, 0, 0⟩, by decide, by decide⟩, by decide⟩

/-- C7 (amended): for every argument vector of at least 5 arguments that the
argument loop parses within bounds, `wmain` returns; it returns 0 before any
privilege grant, process construction or Enumerate call when (a) no `-p` target
was given, (b) the selected pid equals the scanner's own pid, (c) no valid `-m`
memory selection was given, or (d) the memory selection is `region` or
`referenced` and the address is null; and when none of (a)-(d) holds and the
Wow64 check (32-bit scanner on a 64-bit system) does not end the run, scanning
begins: the trace is the banner followed by the scan, starting with the
privilege grant and the ScannerContext built from the parsed locals. -/
theorem wmain_validation_gate (E : ConsoleEnv) (K : ConsoleConsts) (Args : List String)
    (h5 : 5 ≤ Args.length) :
    (lastTakesValue Args = false →
      ∃ s code tr, parseArgs E K Args = some s ∧ wmain E K Args = some (code, tr)) ∧
    (∀ s code tr, parseArgs E K Args = some s → wmain E K Args = some (code, tr) →
      (s.ProcType = SelectedProcess_t.InvalidPid ↔ givesTarget Args = false) ∧
      (s.Mst = MemorySelection_t.Invalid ↔ givesMemorySelection Args = false) ∧
      ((s.ProcType = SelectedProcess_t.InvalidPid ∨
          s.dwSelectedPid = E.GetCurrentProcessId ∨
          s.Mst = MemorySelection_t.Invalid ∨
          ((s.Mst = MemorySelection_t.Block ∨ s.Mst = MemorySelection_t.Referenced) ∧
            s.pAddress = 0)) →
        code = 0 ∧ ∀ ev ∈ tr, ev.isScanning = false) ∧
      (¬ (s.ProcType = SelectedProcess_t.InvalidPid ∨
          s.dwSelectedPid = E.GetCurrentProcessId ∨
          s.Mst = MemorySelection_t.Invalid ∨
          ((s.Mst = MemorySelection_t.Block ∨ s.Mst = MemorySelection_t.Referenced) ∧
            s.pAddress = 0)) →
        wow64Gate E = false →
        code = 1 ∧ tr = bannerEvents s ++ runScan E K s ∧
          Event.GrantSeDebug E.GrantSelfSeDebug ∈ tr ∧
          Event.NewScannerContext s.qwOptFlags s.Mst s.pAddress s.dwRegionSize
            s.qwFilterFlags ∈ tr)) := by
  refine ⟨wmain_returns E K Args, ?_⟩
  intro s code tr hs hres
  have hP := parseLoop_ProcType E K Args ParseState.init s hs
  have hM := parseLoop_Mst E K Args ParseState.init s hs
  simp only [ParseState.init, true_and] at hP hM
  refine ⟨hP, hM, ?_, ?_⟩
  · intro hrej
    have hv : validate E s ≠ none := by
      unfold validate
      split_ifs <;> simp_all
    rw [wmain_of_parse E K Args s hs] at hres
    have hbanner : ∀ ev ∈ bannerEvents s, ev.isScanning = false := by
      intro ev hev
      rw [mem_bannerEvents s ev hev]
      rfl
    by_cases hgate : wow64Gate E = true
    · rw [if_pos hgate] at hres
      cases hres
      refine ⟨rfl, fun ev hev => ?_⟩
      rcases List.mem_append.mp hev with h | h
      · exact hbanner ev h
      · simp at h; subst h; rfl
    · rw [if_neg hgate, if_neg (by omega)] at hres
      cases hval : validate E s with
      | none => exact absurd hval hv
      | some rej =>
        rw [hval] at hres
        cases hres
        refine ⟨rfl, fun ev hev => ?_⟩
        rcases List.mem_append.mp hev with h | h
        · exact hbanner ev h
        · simp at h
          subst h
          rcases validate_some_cases E s ev hval with h | h | h | h <;> subst h <;> rfl
  · intro hok hgate
    have hv : validate E s = none := by
      unfold validate
      split_ifs <;> simp_all
    rw [wmain_of_parse E K Args s hs, if_neg (by simp [hgate]), if_neg (by omega), hv] at hres
    cases hres
    exact ⟨rfl, rfl, List.mem_append.mpr (Or.inr (runScan_mem E K s).1),
      List.mem_append.mpr (Or.inr (runScan_mem E K s).2.1)⟩

/-- C7 (amended) at concrete inputs: `Moneta64.exe -p 1000 -m ioc` has 5
arguments and is parsed within bounds, so `wmain` returns; the run of a 64-bit
scanner begins the scan of process 1000. -/
theorem wmain_validation_gate_witness :
    5 ≤ demoScanArgs.length ∧
    (∃ s code tr, parseArgs demoConsoleEnv sampleConsoleConsts demoScanArgs = some s ∧
      wmain demoConsoleEnv sampleConsoleConsts demoScanArgs = some (code, tr)) :=
  ⟨by decide,
   (wmain_validation_gate demoConsoleEnv sampleConsoleConsts demoScanArgs (by decide)).1
     (by decide)⟩

/-! ## The filter mask -/

theorem foldl_or_init (K : ConsoleConsts) (l : List String) :
    ∀ f : Nat, l.foldl (fun f t => f ||| filterFlagOf K (lowered t)) f =
      f ||| namedFilterFlags K l := by
  unfold namedFilterFlags
  induction l with
  | nil => intro f; simp
  | cons a rest ih =>
    intro f
    rw [List.foldl_cons, List.foldl_cons, ih (f ||| _), ih (0 ||| _)]
    simp [Nat.lor_assoc]

theorem filterLoop_eq (K : ConsoleConsts) (l : List String) :
    ∀ f : Nat, filterLoop K l f =
      if l.any (fun t => decide (lowered t = "*")) then 2 ^ 64 - 1
      else f ||| namedFilterFlags K l := by
  induction l with
  | nil => intro f; simp [filterLoop, namedFilterFlags]
  | cons a rest ih =>
    intro f
    have hcons : namedFilterFlags K (a :: rest) =
        filterFlagOf K (lowered a) ||| namedFilterFlags K rest := by
      unfold namedFilterFlags
      rw [List.foldl_cons, foldl_or_init]
      simp [namedFilterFlags]
    rw [filterLoop, hcons]
    simp only [List.any_cons]
    by_cases h0 : lowered a = "*"
    · simp [h0]
    · simp only [h0, if_false, decide_False, Bool.false_or]
      unfold filterFlagOf
      split_ifs <;> rw [ih] <;> simp_all [Nat.lor_assoc]

theorem filterFlagOf_lt (K : ConsoleConsts) (t : String) : filterFlagOf K t < 2 ^ 64 := by
  unfold filterFlagOf
  split_ifs
  · exact K.unsigned_modules_lt
  · exact K.metadata_modules_lt
  · exact K.clr_prvx_lt
  · exact K.clr_heap_lt
  · exact K.wow64_init_lt
  · exact Nat.two_pow_pos 64

theorem namedFilterFlags_cons (K : ConsoleConsts) (a : String) (rest : List String) :
    namedFilterFlags K (a :: rest) =
      filterFlagOf K (lowered a) ||| namedFilterFlags K rest := by
  unfold namedFilterFlags
  rw [List.foldl_cons, foldl_or_init]
  simp [namedFilterFlags]

theorem namedFilterFlags_lt (K : ConsoleConsts) (l : List String) :
    namedFilterFlags K l < 2 ^ 64 := by
  induction l with
  | nil => simp [namedFilterFlags]
  | cons a rest ih =>
    rw [namedFilterFlags_cons]
    exact Nat.or_lt_two_pow (filterFlagOf_lt K _) ih

theorem namedFilterFlags_testBit (K : ConsoleConsts) (l : List String) (i : Nat) :
    (namedFilterFlags K l).testBit i =
      l.any (fun t => (filterFlagOf K (lowered t)).testBit i) := by
  induction l with
  | nil => simp [namedFilterFlags]
  | cons a rest ih => rw [namedFilterFlags_cons, Nat.testBit_or, ih, List.any_cons]

theorem allBits_or (x : Nat) (hx : x < 2 ^ 64) : (2 ^ 64 - 1) ||| x = 2 ^ 64 - 1 := by
  apply Nat.eq_of_testBit_eq
  intro i
  rw [Nat.testBit_or, Nat.testBit_two_pow_sub_one]
  by_cases hi : i < 64
  · simp [hi]
  · have : x.testBit i = false :=
      Nat.testBit_lt_two_pow (lt_of_lt_of_le hx (Nat.pow_le_pow_right (by decide) (by omega)))
    simp [hi, this]

theorem namedFilterFlags_absorb (K : ConsoleConsts) (l l1 : List String)
    (hsub : ∀ t ∈ l1, t ∈ l) :
    namedFilterFlags K l ||| namedFilterFlags K l1 = namedFilterFlags K l := by
  apply Nat.eq_of_testBit_eq
  intro i
  rw [Nat.testBit_or, namedFilterFlags_testBit, namedFilterFlags_testBit]
  cases h1 : l1.any (fun t => (filterFlagOf K (lowered t)).testBit i) with
  | false => simp
  | true =>
    obtain ⟨t, ht, hbit⟩ := List.any_eq_true.mp h1
    have : l.any (fun t => (filterFlagOf K (lowered t)).testBit i) = true :=
      List.any_eq_true.mpr ⟨t, hsub t ht, hbit⟩
    simp [this]

/-- A later pass of the `--filter` loop over a part of the arguments already
scanned leaves the mask unchanged. -/
theorem filterLoop_idem (K : ConsoleConsts) (l l1 : List String) (hsub : ∀ t ∈ l1, t ∈ l) :
    filterLoop K l1 (filterLoop K l 0) = filterLoop K l 0 := by
  rw [filterLoop_eq K l1, filterLoop_eq K l 0]
  by_cases h1 : l1.any (fun t => decide (lowered t = "*")) = true
  · obtain ⟨t, ht, hstar⟩ := List.any_eq_true.mp h1
    have h : l.any (fun t => decide (lowered t = "*")) = true :=
      List.any_eq_true.mpr ⟨t, hsub t ht, hstar⟩
    simp [h1, h]
  · by_cases h : l.any (fun t => decide (lowered t = "*")) = true
    · simp only [h1, h, if_true, if_false, Bool.false_eq_true]
      exact allBits_or _ (namedFilterFlags_lt K l1)
    · simp only [h1, h, if_false, Bool.false_eq_true, Nat.zero_or]
      exact namedFilterFlags_absorb K l l1 hsub

theorem parseLoop_filter_stable (E : ConsoleEnv) (K : ConsoleConsts) (l : List String)
    (Args : List String) :
    ∀ s s1 : ParseState, (∀ t ∈ Args, t ∈ l) → s.qwFilterFlags = filterLoop K l 0 →
      parseLoop E K Args s = some s1 → s1.qwFilterFlags = filterLoop K l 0 := by
  induction Args with
  | nil =>
    intro s s1 _ hf h
    simp only [parseLoop, Option.some.injEq] at h
    subst h
    exact hf
  | cons cur rest ih =>
    intro s s1 hsub hf h
    rw [parseLoop] at h
    cases hp : parseArg E K cur rest s with
    | none => rw [hp] at h; cases h
    | some s2 =>
      rw [hp] at h
      simp only [] at h
      have h2 := parseArg_qwFilterFlags E K cur rest s s2 hp
      have hf2 : s2.qwFilterFlags = filterLoop K l 0 := by
        rw [h2]
        split_ifs
        · rw [hf]; exact filterLoop_idem K l (cur :: rest) hsub
        · exact hf
      exact ih s2 s1 (fun t ht => hsub t (List.mem_cons_of_mem _ ht)) hf2 h

theorem parseLoop_filterMask (E : ConsoleEnv) (K : ConsoleConsts) (Args : List String) :
    ∀ s s1 : ParseState, s.qwFilterFlags = 0 → parseLoop E K Args s = some s1 →
      s1.qwFilterFlags = filterMask K Args := by
  induction Args with
  | nil =>
    intro s s1 hf h
    simp only [parseLoop, Option.some.injEq] at h
    subst h
    simp [hf, filterMask, filterTokens, namedFilterFlags]
  | cons cur rest ih =>
    intro s s1 hf h
    rw [parseLoop] at h
    cases hp : parseArg E K cur rest s with
    | none => rw [hp] at h; cases h
    | some s2 =>
      rw [hp] at h
      simp only [] at h
      have h2 := parseArg_qwFilterFlags E K cur rest s s2 hp
      by_cases hc : lowered cur = "--filter"
      · rw [if_pos hc, hf] at h2
        have hmask : filterMask K (cur :: rest) = filterLoop K (cur :: rest) 0 := by
          rw [filterLoop_eq]
          simp [filterMask, filterTokens, List.dropWhile_cons, hc]
        rw [hmask]
        exact parseLoop_filter_stable E K (cur :: rest) rest s2 s1
          (fun t ht => List.mem_cons_of_mem _ ht) h2 h
      · rw [if_neg hc, hf] at h2
        have hmask : filterMask K (cur :: rest) = filterMask K rest := by
          simp [filterMask, filterTokens, List.dropWhile_cons, hc]
        rw [hmask]
        exact ih s2 s1 h2 h

/-- C8, as stated, fails: in `Moneta64.exe -m ioc --filter clr-heap -p *` the
only rule category named is `clr-heap` and the `*` is the value of `-p`; the
claim gives the mask `FILTER_FLAG_CLR_HEAP`, while the mask handed to
ScannerContext has all 64 bits set. -/
theorem filter_mask_counterexample :
    wmain demoConsoleEnv sampleConsoleConsts demoFilterArgs =
      some (1, [Event.Banner, Event.GrantSeDebug true,
        Event.NewScannerContext 0 MemorySelection_t.Ioc 0 0 (2 ^ 64 - 1),
        Event.ProcessConstruct 4, Event.Enumerate 4,
        Event.ProcessConstruct 1000, Event.Enumerate 1000, Event.ScanCompleted]) ∧
    2 ^ 64 - 1 ≠ sampleConsoleConsts.FILTER_FLAG_CLR_HEAP := by
  decide

/-- C8 (amended): the filter mask that the argument loop computes, and that
`wmain` hands to ScannerContext, has all bits set when `*` occurs among the
arguments from the first `--filter` to the end of the argument vector, and
otherwise is exactly the bitwise OR of the flags of the rule categories named
among those arguments; it is zero when `--filter` is absent.  Every argument
after the first `--filter` counts, also the value of another switch. -/
theorem filter_mask_from_first_filter (E : ConsoleEnv) (K : ConsoleConsts)
    (Args : List String) :
    (lastTakesValue Args = false →
      ∃ s code tr, parseArgs E K Args = some s ∧ wmain E K Args = some (code, tr)) ∧
    (∀ s, parseArgs E K Args = some s → s.qwFilterFlags = filterMask K Args) ∧
    (∀ code tr, wmain E K Args = some (code, tr) →
      ∀ o m a r f, Event.NewScannerContext o m a r f ∈ tr → f = filterMask K Args) ∧
    ((∀ a ∈ Args, lowered a ≠ "--filter") → filterMask K Args = 0) := by
  have hparse : ∀ s, parseArgs E K Args = some s → s.qwFilterFlags = filterMask K Args :=
    fun s hs => parseLoop_filterMask E K Args ParseState.init s rfl hs
  refine ⟨wmain_returns E K Args, hparse, ?_, ?_⟩
  · intro code tr hres o m a r f hmem
    cases hs : parseArgs E K Args with
    | none => simp [wmain, hs] at hres
    | some s =>
      rw [wmain_of_parse E K Args s hs] at hres
      have hnotin : ∀ l : List Event, (∀ x ∈ l, x.afterValidation = false) →
          Event.NewScannerContext o m a r f ∉ bannerEvents s ++ l := by
        intro l hl hmem
        rcases List.mem_append.mp hmem with h | h
        · have := banner_not_afterValidation s _ h; cases this
        · have := hl _ h; cases this
      by_cases hgate : wow64Gate E = true
      · rw [if_pos hgate] at hres
        cases hres
        exact absurd hmem (hnotin _ (by simp [Event.afterValidation]))
      · rw [if_neg hgate] at hres
        by_cases hlen : Args.length < 5
        · rw [if_pos hlen] at hres
          cases hres
          exact absurd hmem (hnotin _ (usage_not_afterValidation E))
        · rw [if_neg hlen] at hres
          cases hv : validate E s with
          | some rej =>
            rw [hv] at hres
            cases hres
            refine absurd hmem (hnotin _ ?_)
            intro x hx
            simp at hx
            subst hx
            rcases validate_some_cases E s x hv with h | h | h | h <;> subst h <;> rfl
          | none =>
            rw [hv] at hres
            cases hres
            rcases List.mem_append.mp hmem with h | h
            · have := banner_not_afterValidation s _ h; cases this
            · rw [((runScan_events E K s _ h).2 o m a r f rfl).2.2.2.2]
              exact hparse s hs
  · intro hno
    have : filterTokens Args = [] := by
      unfold filterTokens
      rw [List.dropWhile_eq_nil_iff]
      intro a ha
      simp [hno a ha]
    simp [filterMask, this, namedFilterFlags]

/-- C8 (amended) at concrete inputs: `--filter clr-heap unsigned-modules` gives
the OR of the two flags, and a `*` that precedes `--filter` does not count. -/
theorem filter_mask_from_first_filter_witness :
    (∃ s code tr,
      parseArgs demoConsoleEnv sampleConsoleConsts
        ["Moneta64.exe", "-p", "*", "-m", "*", "--filter", "clr-heap", "UNSIGNED-MODULES"]
          = some s ∧
      wmain demoConsoleEnv sampleConsoleConsts
        ["Moneta64.exe", "-p", "*", "-m", "*", "--filter", "clr-heap", "UNSIGNED-MODULES"]
          = some (code, tr)) ∧
    filterMask sampleConsoleConsts
      ["Moneta64.exe", "-p", "*", "-m", "*", "--filter", "clr-heap", "UNSIGNED-MODULES"] = 9 :=
  ⟨(filter_mask_from_first_filter demoConsoleEnv sampleConsoleConsts
      ["Moneta64.exe", "-p", "*", "-m", "*", "--filter", "clr-heap", "UNSIGNED-MODULES"]).1
      (by decide),
   by decide⟩

/-! ## Termination of the page loop -/

/-- Once `RegionSize` exceeds 0xFFFFF000, every page-aligned 32-bit offset is
below it: the loop condition never fails and no bound on the number of
condition tests is enough. -/
theorem pageLoop_diverges (E : WinEnv) (build : Nat) (Mbi : MEMORY_BASIC_INFORMATION)
    (hsize : 0xFFFFF000 < Mbi.RegionSize) :
    ∀ (fuel off acc : Nat) (tr : List Nat), off % 0x1000 = 0 → off < 2 ^ 32 →
      pageLoop E build Mbi fuel off acc tr = none := by
  intro fuel
  induction fuel with
  | zero => intro off acc tr _ _; rfl
  | succ f ih =>
    intro off acc tr hal hlt
    have hlt2 : off < 4294967296 := by norm_num at hlt; exact hlt
    have hcond : off < Mbi.RegionSize := by omega
    rw [pageLoop, if_pos hcond]
    exact ih _ _ _ (by norm_num; omega) (Nat.mod_lt _ (by norm_num))

/-- A result of the page loop does not depend on the bound once the bound is
large enough. -/
theorem pageLoop_mono (E : WinEnv) (build : Nat) (Mbi : MEMORY_BASIC_INFORMATION) :
    ∀ (fuel fuel2 off acc : Nat) (tr : List Nat) (x : Nat × List Nat), fuel ≤ fuel2 →
      pageLoop E build Mbi fuel off acc tr = some x →
      pageLoop E build Mbi fuel2 off acc tr = some x := by
  intro fuel
  induction fuel with
  | zero => intro fuel2 off acc tr x _ h; cases h
  | succ f ih =>
    intro fuel2 off acc tr x hle h
    obtain ⟨g, rfl⟩ : ∃ g, fuel2 = g + 1 := ⟨fuel2 - 1, by omega⟩
    rw [pageLoop] at h ⊢
    by_cases hc : off < Mbi.RegionSize
    · rw [if_pos hc] at h ⊢
      exact ih g _ _ _ x (by omega) h
    · rw [if_neg hc] at h ⊢
      exact h

theorem QueryPrivateSize_mono (E : WinEnv) (cached : Nat) (Mbi : MEMORY_BASIC_INFORMATION)
    (fuel fuel2 : Nat) (r : QueryResult) (hle : fuel ≤ fuel2)
    (h : QueryPrivateSize E fuel cached Mbi = some r) :
    QueryPrivateSize E fuel2 cached Mbi = some r := by
  unfold QueryPrivateSize at h ⊢
  simp only [] at h ⊢
  by_cases hc : Mbi.State = MEM_COMMIT ∧ Mbi.Protect ≠ PAGE_NOACCESS ∧ Mbi.MemType = MEM_IMAGE
  · rw [if_pos hc] at h ⊢
    cases hl : pageLoop E (refreshBuildNumber E cached) Mbi fuel 0 0 [] with
    | none => rw [hl] at h; cases h
    | some x =>
      rw [pageLoop_mono E _ Mbi fuel fuel2 0 0 [] x hle hl]
      rw [hl] at h
      exact h
  · rw [if_neg hc] at h ⊢
    exact h

/-- C11 fails on the code: for the committed, accessible image region of
`RegionSize = 0x100000000` the 32-bit offset wraps from 0xFFFFF000 back to 0, so
the page loop never leaves and neither `QueryPrivateSize` nor the constructor
returns, whatever the bound on the number of iterations; the claim has the loop
end after 0x100000 iterations.  In general, for a committed, accessible image
region the loop terminates exactly when `RegionSize <= 0xFFFFF000`, and then
after `ceil(RegionSize / 0x1000)` iterations (one query per iteration). -/
theorem page_loop_offset_wraps (E : WinEnv) (cached : Nat) :
    (∀ fuel, QueryPrivateSize E fuel cached demoHugeImageMbi = none) ∧
    (∀ (K : SubregionFlagConsts) (P : Process) (fuel : Nat),
      Subregion.new K E fuel cached P demoHugeImageMbi = none) ∧
    (∀ Mbi : MEMORY_BASIC_INFORMATION, Mbi.State = MEM_COMMIT →
      Mbi.Protect ≠ PAGE_NOACCESS → Mbi.MemType = MEM_IMAGE →
      ((∃ fuel r, QueryPrivateSize E fuel cached Mbi = some r) ↔
        Mbi.RegionSize ≤ 0xFFFFF000) ∧
      (∀ fuel r, QueryPrivateSize E fuel cached Mbi = some r →
        r.queried.length = pageCount Mbi.RegionSize)) := by
  have hq : ∀ Mbi : MEMORY_BASIC_INFORMATION, Mbi.State = MEM_COMMIT →
      Mbi.Protect ≠ PAGE_NOACCESS → Mbi.MemType = MEM_IMAGE →
      0xFFFFF000 < Mbi.RegionSize → ∀ fuel, QueryPrivateSize E fuel cached Mbi = none := by
    intro Mbi hs hp ht hsize fuel
    unfold QueryPrivateSize
    simp only []
    rw [if_pos ⟨hs, hp, ht⟩,
      pageLoop_diverges E _ Mbi hsize fuel 0 0 [] (by norm_num) (by norm_num)]
  have hhuge : ∀ fuel, QueryPrivateSize E fuel cached demoHugeImageMbi = none :=
    hq demoHugeImageMbi (by decide) (by decide) (by decide) (by decide)
  refine ⟨hhuge, ?_, ?_⟩
  · intro K P fuel
    unfold Subregion.new
    simp only []
    rw [if_pos (by decide), hhuge fuel]
  · intro Mbi hs hp ht
    have hgood : Mbi.RegionSize ≤ 0xFFFFF000 → ∀ fuel, pageCount Mbi.RegionSize < fuel →
        QueryPrivateSize E fuel cached Mbi =
          some ⟨0 + 0x1000 * ((List.range' 0 (pageCount Mbi.RegionSize)).filter
              (pageCountsPrivate E (refreshBuildNumber E cached) Mbi)).length,
            refreshBuildNumber E cached,
            [] ++ (List.range' 0 (pageCount Mbi.RegionSize)).map
              (fun j => Mbi.BaseAddress + j * 0x1000)⟩ := by
      intro hsize fuel hfuel
      have hloop := pageLoop_from E (refreshBuildNumber E cached) Mbi hsize
        (pageCount Mbi.RegionSize) 0 fuel 0 [] (by omega) hfuel (by omega)
      rw [Nat.zero_mul] at hloop
      unfold QueryPrivateSize
      simp only []
      rw [if_pos ⟨hs, hp, ht⟩, hloop]
    constructor
    · constructor
      · rintro ⟨fuel, r, hr⟩
        by_contra hbig
        rw [hq Mbi hs hp ht (by omega) fuel] at hr
        cases hr
      · intro hsize
        exact ⟨pageCount Mbi.RegionSize + 1, _, hgood hsize _ (by omega)⟩
    · intro fuel r hr
      by_cases hsize : Mbi.RegionSize ≤ 0xFFFFF000
      · have hr2 := QueryPrivateSize_mono E cached Mbi fuel
          (fuel + pageCount Mbi.RegionSize + 1) r (by omega) hr
        rw [hgood hsize _ (by omega)] at hr2
        cases hr2
        simp
      · rw [hq Mbi hs hp ht (by omega) fuel] at hr
        cases hr

end Moneta
